import Mathlib

/-!
Verification development for the SpeckMAC-D medium-access-control module
(`SpeckMacModule.h` / `SpeckMacModule.cc`).

The module is shallowly embedded: machine integers (`int` head/tail indices of
the circular transmit buffer) become `ℤ` with the C `%` on nonnegative operands
rendered as `Int.emod`; `double` quantities (intervals, clock drift, data rate)
become `ℚ`; the event-driven handlers of `handleMessage` become functions on an
explicit `MacState` record, with the discrete-event scheduler rendered as lists
of pending self-events and armed timers.  Armed duty-cycle timers are modelled
with a `tracked` flag: the C++ code holds a single pointer per timer kind
(`dutyCycleSleepMsg` / `dutyCycleWakeupMsg`), and only the pointed-to instance
can be cancelled by `cancelAndDelete`; an armed event whose pointer was
reassigned or nulled stays armed but untracked, exactly as in the source.

The code is compiled with `#define BLOCKING` (line 10 of the source), so
`carrierBusy` models the blocking branch.  Quantities such as `simTime()` that
do not affect the verified properties are elided; the `dblrand()` offset, the
radio-readiness classification of `isCarrierSenseValid()` and the
`timeLeftListening` comparison of `carrierFree` are supplied as event
parameters (environment oracles), since the model elides the wall clock.
-/

namespace SpeckMac

/-- A MAC frame (`MAC_GenericFrame`).  Only the serialized byte length matters
to the MAC algorithm; `tag` gives frames an identity so that FIFO statements
can distinguish them.  A `none` of `Option Frame` stands for a NULL pointer. -/
structure Frame where
  len : ℕ
  tag : ℕ
deriving DecidableEq

/-- The MAC states of the `MacStates` enum. -/
inductive MState where
  | default
  | tx
  | carrierSensing
  | expectingRx
  | tryTx
deriving DecidableEq

/-- Return codes of `radioModule->isCarrierSenseValid()`, supplied to
`performCarrierSense` by the radio collaborator. -/
inductive CSValidity where
  | valid
  | radioInTxMode
  | radioSleeping
  | radioNonReady
  | unknown
deriving DecidableEq

/-- Configuration parameters read in `readIniFileParameters` / `initialize`.
`radioDataRate` is the radio's `dataRate` parameter in kbit/s (e.g. 250 for the
CC2420), so `1000 * radioDataRate` is the bit rate in bit/s. -/
structure Params where
  sleepInterval : ℚ
  listenInterval : ℚ
  randomTxOffset : ℚ
  maxMacFrameSize : ℕ
  macBufferSize : ℕ
  macFrameOverhead : ℕ
  cpuClockDrift : ℚ
  radioDataRate : ℚ
  phyLayerOverhead : ℕ
  radioDelayForValidCS : ℚ

/-- `#define DRIFTED_TIME(time) ((time) * cpuClockDrift)` -/
def DRIFTED_TIME (p : Params) (time : ℚ) : ℚ := time * p.cpuClockDrift

/-- `#define CARRIER_SENSE_INTERVAL 0.0001` -/
def CARRIER_SENSE_INTERVAL : ℚ := 1 / 10000

/-- `epsilon = 0.000001f`, set in `initialize`. -/
def epsilon : ℚ := 1 / 1000000

/-- `#define SLEEP 0` -/
def SLEEP : ℕ := 0

/-- `#define WAKEUP 1` -/
def WAKEUP : ℕ := 1

/-- The C cast `(int) x` of a `double`: truncation toward zero. -/
def cIntTrunc (x : ℚ) : ℤ := if x < 0 then ⌈x⌉ else ⌊x⌋

/-- An armed self-timer.  `tracked` records whether the module's pointer for
this timer kind currently points at it (only tracked timers can be cancelled
by `cancelAndDelete`); `delay` is the delay it was scheduled with. -/
structure TimerEntry where
  tracked : Bool
  delay : ℚ
deriving DecidableEq

/-- `ptr = NULL` while the armed event survives: every armed entry loses its
tracked status. -/
def untrackAll (l : List TimerEntry) : List TimerEntry :=
  l.map (fun e => { e with tracked := false })

/-- `if (ptr != NULL && ptr->isScheduled()) cancelAndDelete(ptr)`: the armed
instance the pointer tracks (if any) is removed. -/
def cancelTracked (l : List TimerEntry) : List TimerEntry :=
  l.filter (fun e => !e.tracked)

/-- `ptr = new ...; scheduleAt(simTime() + d, ptr)`: a new tracked instance is
armed; whatever the pointer previously tracked stays armed but untracked. -/
def armTracked (l : List TimerEntry) (d : ℚ) : List TimerEntry :=
  ⟨true, d⟩ :: untrackAll l

/-- `scheduleAt(simTime() + d, new ...)` with no pointer kept: an untracked
instance is armed. -/
def armUntracked (l : List TimerEntry) (d : ℚ) : List TimerEntry :=
  ⟨false, d⟩ :: l

/-- The mutable state of one `SpeckMacModule` instance, together with the
pending self-events it has scheduled and logs of its outputs to collaborators.
`schedTXBuffer` is the backing array of the circular transmit buffer (a total
function; cells never written model uninitialized memory and hold the junk
frame `⟨0, 0⟩` of `initMac`).  `radioSends` logs `(frame, delay)` for every
data frame handed to the radio via `sendDelayed`; `txStrobes`/`txActive` model
the radio's transmit pipeline so that `RADIO_2_MAC_STARTED_TX` /
`RADIO_2_MAC_STOPPED_TX` notifications are only enabled when a transmission
was actually commanded; `netNotifs` counts `MAC_2_NETWORK_FULL_BUFFER`
notifications; `popEmptyLog` counts the `"Trying to pop EMPTY TxBuffer!!"`
diagnostics; `rxDelivered` counts frames decapsulated and sent up. -/
structure MacState where
  macState : MState
  doTx : Bool
  disabled : Bool
  headTxBuffer : ℤ
  tailTxBuffer : ℤ
  schedTXBuffer : ℕ → Frame
  dataTXtime : ℚ
  redundancy : ℤ
  sleepTimers : List TimerEntry
  wakeTimers : List TimerEntry
  exitCS : Option ℚ
  pcsPending : List ℚ
  checkTxPending : List ℚ
  initTxPending : List ℚ
  pushPending : List Frame
  txStrobes : ℕ
  txActive : Bool
  radioSends : List (Frame × ℚ)
  netNotifs : ℕ
  popEmptyLog : ℕ
  rxDelivered : ℕ

/-- `#define MAC_BUFFER_ARRAY_SIZE macBufferSize+1` -/
def MAC_BUFFER_ARRAY_SIZE (p : Params) : ℤ := (p.macBufferSize : ℤ) + 1

/-- `int SpeckMacModule::getTXBufferSize(void)` -/
def getTXBufferSize (p : Params) (s : MacState) : ℤ :=
  let size := s.tailTxBuffer - s.headTxBuffer
  if size < 0 then size + MAC_BUFFER_ARRAY_SIZE p else size

/-- `#define BUFFER_IS_EMPTY (headTxBuffer==tailTxBuffer)` -/
def BUFFER_IS_EMPTY (s : MacState) : Bool :=
  decide (s.headTxBuffer = s.tailTxBuffer)

/-- `#define BUFFER_IS_FULL (getTXBufferSize() >= macBufferSize)` -/
def BUFFER_IS_FULL (p : Params) (s : MacState) : Bool :=
  decide (getTXBufferSize p s ≥ (p.macBufferSize : ℤ))

/-- `int SpeckMacModule::pushBuffer(MAC_GenericFrame *theFrame)`.
Returns the updated state and the source's 0/1 return code as a `Bool`. -/
def pushBuffer (p : Params) (s : MacState) (theFrame : Option Frame) :
    MacState × Bool :=
  match theFrame with
  | none => (s, false)
  | some f =>
    let t1 := (s.tailTxBuffer + 1).emod (MAC_BUFFER_ARRAY_SIZE p)
    if t1 = s.headTxBuffer then
      -- buffer full: reset tail pointer, value not added
      let t2 := if t1 = 0 then MAC_BUFFER_ARRAY_SIZE p - 1 else t1 - 1
      ({ s with tailTxBuffer := t2 }, false)
    else
      let idx : ℕ :=
        if t1 = 0 then (MAC_BUFFER_ARRAY_SIZE p - 1).toNat else (t1 - 1).toNat
      ({ s with tailTxBuffer := t1,
                schedTXBuffer := Function.update s.schedTXBuffer idx f }, true)

/-- `MAC_GenericFrame* SpeckMacModule::popTxBuffer()`.
On an empty buffer the source logs, decrements `tailTxBuffer` and returns
NULL; otherwise it reads the head slot, computes `dataTXtime` and
`redundancy = (int)((sleepInterval / dataTXtime) + 0.5)` as side effects, and
advances the head index. -/
def popTxBuffer (p : Params) (s : MacState) : Option Frame × MacState :=
  if s.tailTxBuffer = s.headTxBuffer then
    (none, { s with tailTxBuffer := s.tailTxBuffer - 1,
                    popEmptyLog := s.popEmptyLog + 1 })
  else
    let dataFrame := s.schedTXBuffer s.headTxBuffer.toNat
    let dTX : ℚ :=
      (((dataFrame.len : ℚ) + (p.phyLayerOverhead : ℚ)) * 8) /
        (1000 * p.radioDataRate)
    let red : ℤ := cIntTrunc (p.sleepInterval / dTX + 1 / 2)
    (some dataFrame,
     { s with dataTXtime := dTX, redundancy := red,
              headTxBuffer := (s.headTxBuffer + 1).emod (MAC_BUFFER_ARRAY_SIZE p) })

/-- `int SpeckMacModule::encapsulateNetworkFrame(...)`: returns the byte
length of the produced MAC frame, or `none` when the encapsulated length
would exceed `maxMacFrameSize` (the source returns 0 and the caller drops the
packet). -/
def encapsulateNetworkFrame (p : Params) (netLen : ℕ) : Option ℕ :=
  let totalMsgLen := netLen + p.macFrameOverhead
  if totalMsgLen > p.maxMacFrameSize then none
  else some (p.macFrameOverhead + netLen)

/-- `void SpeckMacModule::handleNetworkLayerFrame(cMessage *msg)` (case
`NET_FRAME`).  `rand` is the `dblrand()` oracle.  Note the entire body is
guarded by `if (!BUFFER_IS_FULL)`, with no else branch: a payload arriving at
a full buffer is dropped silently. -/
def handleNetworkLayerFrame (p : Params) (rand : ℚ) (nf : Frame)
    (s : MacState) : MacState :=
  if BUFFER_IS_FULL p s then s
  else
    match encapsulateNetworkFrame p nf.len with
    | none => s      -- oversized packet dropped (warning logged)
    | some macLen =>
      let dataFrame : Frame := ⟨macLen, nf.tag⟩
      { s with doTx := true,
               pushPending := s.pushPending ++ [dataFrame],
               initTxPending :=
                 DRIFTED_TIME p (rand * p.randomTxOffset) :: s.initTxPending }

/-- `void SpeckMacModule::pushFrameIntoBuffer(cMessage *msg)` (case
`MAC_FRAME_SELF_PUSH_TX_BUFFER`): push a duplicate if not full, else send a
`MAC_2_NETWORK_FULL_BUFFER` notification. -/
def pushFrameIntoBuffer (p : Params) (f : Frame) (s : MacState) : MacState :=
  if BUFFER_IS_FULL p s then
    { s with netNotifs := s.netNotifs + 1 }
  else
    (pushBuffer p s (some f)).1

/-- `void SpeckMacModule::initiateCarrierSense()`. -/
def initiateCarrierSense (p : Params) (s : MacState) : MacState :=
  if s.macState = MState.default ∨ s.macState = MState.tryTx then
    if (s.doTx && !(BUFFER_IS_EMPTY s)) || !s.doTx then
      { s with pcsPending := 0 :: s.pcsPending }
    else if s.doTx && BUFFER_IS_EMPTY s then
      -- MAC_SELF_INITIATE_TX received but buffer empty: back to default,
      -- put the node to sleep after the (drifted) listen interval.  The
      -- sleep event is scheduled anonymously: no pointer tracks it.
      { s with macState := MState.default,
               sleepTimers :=
                 armUntracked s.sleepTimers (DRIFTED_TIME p p.listenInterval) }
    else s
  else s

/-- `void SpeckMacModule::performCarrierSense()`.  `reason` is the value of
`radioModule->isCarrierSenseValid()`. -/
def performCarrierSense (p : Params) (reason : CSValidity) (s : MacState) :
    MacState :=
  if s.macState = MState.default ∨ s.macState = MState.tryTx then
    match reason with
    | CSValidity.valid =>
      { s with exitCS := some (CARRIER_SENSE_INTERVAL + epsilon),
               macState := MState.carrierSensing }
    | CSValidity.radioInTxMode =>
      { s with checkTxPending := 0 :: s.checkTxPending }
    | CSValidity.radioSleeping =>
      { s with pcsPending :=
          (DRIFTED_TIME p p.radioDelayForValidCS + epsilon) :: s.pcsPending }
    | CSValidity.radioNonReady =>
      { s with pcsPending :=
          DRIFTED_TIME p p.radioDelayForValidCS :: s.pcsPending }
    | CSValidity.unknown => s   -- warning logged, otherwise ignored
  else s

/-- `void SpeckMacModule::carrierBusy()` with `BLOCKING` defined (as in the
shipped source).  The carrier-sense-exit message is cancelled and nulled
unconditionally at the top; in the guard it then cancels both duty-cycle
timers, moves to `MAC_STATE_EXPECTING_RX` and arms a sleep-timer covering two
maximum-sized frames.  The `doTx` branches differ only in logging. -/
def carrierBusy (p : Params) (s : MacState) : MacState :=
  let s0 := { s with exitCS := none }
  if s0.macState = MState.carrierSensing ∨ s0.macState = MState.default then
    let twoMaxFrames : ℚ :=
      DRIFTED_TIME p ((2 * (p.maxMacFrameSize : ℚ) * 8) / (1000 * p.radioDataRate))
    if s0.doTx then
      let s1 := { s0 with
        wakeTimers := cancelTracked s0.wakeTimers,
        sleepTimers := cancelTracked s0.sleepTimers,
        macState := MState.expectingRx }
      { s1 with sleepTimers := armTracked s1.sleepTimers twoMaxFrames }
    else
      let s1 := { s0 with
        wakeTimers := cancelTracked s0.wakeTimers,
        sleepTimers := cancelTracked s0.sleepTimers,
        macState := MState.expectingRx }
      { s1 with sleepTimers := armTracked s1.sleepTimers twoMaxFrames }
  else s0

/-- `void SpeckMacModule::carrierFree()` (case `MAC_SELF_EXIT_CARRIER_SENSE`).
`timeLeft` is the oracle for the `timeLeftListening > radioDelayForValidCS +
CARRIER_SENSE_INTERVAL` comparison (the model elides the wall clock).  The
firing exit message itself is consumed by the dispatcher (`step`). -/
def carrierFree (p : Params) (timeLeft : Bool) (s : MacState) : MacState :=
  if s.macState = MState.carrierSensing then
    let s1 := { s with macState := MState.default }
    if s1.doTx then
      let s2 := { s1 with
        wakeTimers := cancelTracked s1.wakeTimers,
        sleepTimers := cancelTracked s1.sleepTimers }
      { s2 with checkTxPending := 0 :: s2.checkTxPending }
    else
      if timeLeft then initiateCarrierSense p s1 else s1
  else s

/-- `void SpeckMacModule::sendData()` (case `MAC_SELF_CHECK_TX_BUFFER`): pop
the head frame and hand `redundancy + 1` duplicate copies to the radio, the
i-th delayed by `DRIFTED_TIME(i * dataTXtime)` (each copy also strobing the
radio into TX). -/
def sendData (p : Params) (s : MacState) : MacState :=
  if BUFFER_IS_EMPTY s then s
  else if s.macState = MState.tx ∨ s.macState = MState.default then
    let pr := popTxBuffer p s
    match pr.1 with
    | some dataFrame =>
      let s1 := pr.2
      let copies := (s1.redundancy + 1).toNat
      let sends := (List.range copies).map
        (fun (i : ℕ) => (dataFrame, DRIFTED_TIME p ((i : ℚ) * s1.dataTXtime)))
      { s1 with radioSends := s1.radioSends ++ sends,
                txStrobes := s1.txStrobes + copies }
    | none => pr.2   -- unreachable: the buffer was checked non-empty
  else
    -- safeguard branch flagged "THIS CODE SHOULD NOT BE EXECUTED" in source
    { s with macState := MState.default }

/-- `void SpeckMacModule::finishDataTransmission()` (case
`RADIO_2_MAC_STOPPED_TX`).  Note the final wake-timer is armed
unconditionally, with the *undrifted* `sleepInterval`, and without cancelling
any pending wake-timer. -/
def finishDataTransmission (p : Params) (s : MacState) : MacState :=
  let s1 :=
    if s.macState = MState.tx then
      let sa := { s with macState := MState.default }
      if !(BUFFER_IS_EMPTY sa) then
        { sa with initTxPending :=
            DRIFTED_TIME p (sa.dataTXtime + epsilon) :: sa.initTxPending }
      else
        { sa with doTx := false }
    else s
  { s1 with wakeTimers := armTracked s1.wakeTimers p.sleepInterval }

/-- Case `RADIO_2_MAC_STARTED_TX` of `handleMessage`. -/
def startedTxHandler (s : MacState) : MacState :=
  if s.macState = MState.carrierSensing then
    { s with macState := MState.default,
             checkTxPending := 0 :: s.checkTxPending }
  else if s.macState = MState.default then
    { s with macState := MState.tx }
  else s

/-- Case `MAC_FRAME` of `handleMessage`: unconditionally return to
`MAC_STATE_DEFAULT`, cancel both duty-cycle timers, arm an immediate
(zero-delay) sleep self-event, and deliver the decapsulated payload upward.
`selfExitCSMsg` is not touched. -/
def frameReceivedHandler (s : MacState) : MacState :=
  let s1 := { s with macState := MState.default,
                     wakeTimers := cancelTracked s.wakeTimers,
                     sleepTimers := cancelTracked s.sleepTimers }
  { s1 with sleepTimers := armTracked s1.sleepTimers 0,
            rxDelivered := s1.rxDelivered + 1 }

/-- `void SpeckMacModule::dutyCycle(int typeID)`. -/
def dutyCycle (p : Params) (typeID : ℕ) (s : MacState) : MacState :=
  if typeID = SLEEP then
    let s1 :=
      if s.macState = MState.expectingRx then
        { s with macState := MState.default }
      else s
    let s2 :=
      if s1.macState = MState.default then
        let w := armTracked (cancelTracked s1.wakeTimers) (DRIFTED_TIME p p.sleepInterval)
        { s1 with wakeTimers := w }
      else s1   -- "Radio sleep FAILED."
    { s2 with sleepTimers := untrackAll s2.sleepTimers }  -- dutyCycleSleepMsg = NULL
  else if typeID = WAKEUP then
    let s2 :=
      if s.macState = MState.default then
        let sl := armTracked (cancelTracked s.sleepTimers) (DRIFTED_TIME p p.listenInterval)
        let sa := { s with sleepTimers := sl }
        initiateCarrierSense p sa
      else s    -- "Radio wakeup FAILED."
    { s2 with wakeTimers := untrackAll s2.wakeTimers }  -- dutyCycleWakeupMsg = NULL
  else s

/-- Case `MAC_SELF_INITIATE_TX` of `handleMessage`. -/
def initiateTxHandler (p : Params) (s : MacState) : MacState :=
  if s.macState = MState.default then
    let s1 := { s with macState := MState.tryTx,
                       wakeTimers := cancelTracked s.wakeTimers,
                       sleepTimers := cancelTracked s.sleepTimers }
    initiateCarrierSense p s1
  else s

/-- The events `handleMessage` dispatches on.  Self-events carry no payload
beyond what the source message carries; environment events (`netFrame`,
`pcsFires`, `exitCSFires`, `carrierBusyEvt`) carry the oracles described at
the corresponding handlers.  `sleepFires i` / `wakeFires i` deliver the i-th
armed timer of that kind. -/
inductive Event where
  | startup
  | sleepFires (i : ℕ)
  | wakeFires (i : ℕ)
  | netFrame (rand : ℚ) (nf : Frame)
  | pushBufFires
  | initTxFires
  | pcsFires (reason : CSValidity)
  | carrierBusyEvt
  | exitCSFires (timeLeft : Bool)
  | checkTxFires
  | startedTx
  | stoppedTx
  | frameReceived (f : Frame)
  | outOfEnergy

/-- Which events can occur in a given state: self-events must be pending,
radio transmit notifications require a commanded transmission. -/
def enabled (s : MacState) : Event → Bool
  | Event.startup => true
  | Event.sleepFires i => decide (i < s.sleepTimers.length)
  | Event.wakeFires i => decide (i < s.wakeTimers.length)
  | Event.netFrame _ _ => true
  | Event.pushBufFires => !s.pushPending.isEmpty
  | Event.initTxFires => !s.initTxPending.isEmpty
  | Event.pcsFires _ => !s.pcsPending.isEmpty
  | Event.carrierBusyEvt => true
  | Event.exitCSFires _ => s.exitCS.isSome
  | Event.checkTxFires => !s.checkTxPending.isEmpty
  | Event.startedTx => decide (0 < s.txStrobes) && !s.txActive
  | Event.stoppedTx => s.txActive
  | Event.frameReceived _ => true
  | Event.outOfEnergy => true

/-- One dispatch of `handleMessage`: the delivered self-event is consumed from
the pending set, then (unless the module is disabled, in which case the
message is just deleted) the matching handler runs.  `APP_NODE_STARTUP`
always runs and re-enables the module. -/
def step (p : Params) (s : MacState) : Event → MacState
  | Event.startup =>
    { s with disabled := false, wakeTimers := armTracked s.wakeTimers 0 }
  | Event.sleepFires i =>
    let s0 := { s with sleepTimers := s.sleepTimers.eraseIdx i }
    if s0.disabled then s0 else dutyCycle p SLEEP s0
  | Event.wakeFires i =>
    let s0 := { s with wakeTimers := s.wakeTimers.eraseIdx i }
    if s0.disabled then s0 else dutyCycle p WAKEUP s0
  | Event.netFrame rand nf =>
    if s.disabled then s else handleNetworkLayerFrame p rand nf s
  | Event.pushBufFires =>
    match s.pushPending with
    | [] => s
    | f :: rest =>
      let s0 := { s with pushPending := rest }
      if s0.disabled then s0 else pushFrameIntoBuffer p f s0
  | Event.initTxFires =>
    match s.initTxPending with
    | [] => s
    | _ :: rest =>
      let s0 := { s with initTxPending := rest }
      if s0.disabled then s0 else initiateTxHandler p s0
  | Event.pcsFires reason =>
    match s.pcsPending with
    | [] => s
    | _ :: rest =>
      let s0 := { s with pcsPending := rest }
      if s0.disabled then s0 else performCarrierSense p reason s0
  | Event.carrierBusyEvt =>
    if s.disabled then s else carrierBusy p s
  | Event.exitCSFires timeLeft =>
    let s0 := { s with exitCS := none }
    if s0.disabled then s0 else carrierFree p timeLeft s0
  | Event.checkTxFires =>
    match s.checkTxPending with
    | [] => s
    | _ :: rest =>
      let s0 := { s with checkTxPending := rest }
      if s0.disabled then s0 else sendData p s0
  | Event.startedTx =>
    let s0 := { s with txStrobes := s.txStrobes - 1, txActive := true }
    if s0.disabled then s0 else startedTxHandler s0
  | Event.stoppedTx =>
    let s0 := { s with txActive := false }
    if s0.disabled then s0 else finishDataTransmission p s0
  | Event.frameReceived _ =>
    if s.disabled then s else frameReceivedHandler s
  | Event.outOfEnergy =>
    if s.disabled then s else { s with disabled := true }

/-- The state produced by `initialize`: default MAC state, empty buffer, no
timers, module disabled until `APP_NODE_STARTUP`. -/
def initMac : MacState :=
  { macState := MState.default
    doTx := false
    disabled := true
    headTxBuffer := 0
    tailTxBuffer := 0
    schedTXBuffer := fun _ => ⟨0, 0⟩
    dataTXtime := 0
    redundancy := 0
    sleepTimers := []
    wakeTimers := []
    exitCS := none
    pcsPending := []
    checkTxPending := []
    initTxPending := []
    pushPending := []
    txStrobes := 0
    txActive := false
    radioSends := []
    netNotifs := 0
    popEmptyLog := 0
    rxDelivered := 0 }

/-- Run a sequence of events. -/
def runEvents (p : Params) (s : MacState) (es : List Event) : MacState :=
  es.foldl (step p) s

/-- Every event of the sequence is enabled when it occurs. -/
def traceEnabledFrom (p : Params) : MacState → List Event → Bool
  | _, [] => true
  | s, e :: rest => enabled s e && traceEnabledFrom p (step p s e) rest

/-! ### Transmit-queue operation sequences

For the queue claims the relevant operations are the raw buffer primitives
`pushBuffer` / `popTxBuffer` run directly against the circular buffer. -/

/-- A raw transmit-queue operation. -/
inductive QOp where
  | push (f : Frame)
  | pop

/-- Accumulated run of queue operations: current state, the list of frames
`pushBuffer` accepted (in order), and the list of frames `popTxBuffer`
returned (in order). -/
structure QRun where
  st : MacState
  pushed : List Frame
  popped : List Frame

/-- One queue operation. -/
def qstep (p : Params) (r : QRun) : QOp → QRun
  | QOp.push f =>
    let res := pushBuffer p r.st (some f)
    { st := res.1,
      pushed := if res.2 then r.pushed ++ [f] else r.pushed,
      popped := r.popped }
  | QOp.pop =>
    let res := popTxBuffer p r.st
    { st := res.2,
      pushed := r.pushed,
      popped := r.popped ++ res.1.toList }

/-- Run a sequence of queue operations from the freshly initialized module. -/
def qrun (p : Params) (ops : List QOp) : QRun :=
  ops.foldl (qstep p) ⟨initMac, [], []⟩

/-- `pop` is never invoked while the buffer is empty along the run. -/
def noEmptyPopFrom (p : Params) : MacState → List QOp → Bool
  | _, [] => true
  | s, QOp.push f :: rest => noEmptyPopFrom p (pushBuffer p s (some f)).1 rest
  | s, QOp.pop :: rest =>
    !(decide (s.tailTxBuffer = s.headTxBuffer)) &&
      noEmptyPopFrom p (popTxBuffer p s).2 rest

/-- Representation invariant of the circular buffer: state `s` stores the
frame queue `q` (head of `q` = next frame to pop). -/
structure RingRepr (p : Params) (s : MacState) (q : List Frame) : Prop where
  headLo : 0 ≤ s.headTxBuffer
  headHi : s.headTxBuffer < MAC_BUFFER_ARRAY_SIZE p
  lenLe : q.length ≤ p.macBufferSize
  tailEq : s.tailTxBuffer =
    (s.headTxBuffer + (q.length : ℤ)).emod (MAC_BUFFER_ARRAY_SIZE p)
  slotsEq : ∀ (i : ℕ) (hi : i < q.length),
    s.schedTXBuffer ((s.headTxBuffer + (i : ℤ)).emod (MAC_BUFFER_ARRAY_SIZE p)).toNat
      = q.get ⟨i, hi⟩

/-- Timer-discipline invariant: at most one armed sleep-timer and at most one
armed wake-timer, each tracked by the module's pointer for its kind. -/
def TimersOk (s : MacState) : Prop :=
  s.sleepTimers.length ≤ 1 ∧ s.wakeTimers.length ≤ 1 ∧
  (∀ e ∈ s.sleepTimers, e.tracked = true) ∧
  (∀ e ∈ s.wakeTimers, e.tracked = true)

/-- Events whose handlers obey the cancel-before-arm discipline for the
duty-cycle timers (all of them except node startup, wake-timer firing,
transmit initiation and the transmit-stopped notification). -/
def safeEvent : Event → Bool
  | Event.startup => false
  | Event.wakeFires _ => false
  | Event.initTxFires => false
  | Event.stoppedTx => false
  | _ => true

/-! ### Concrete instances used by witnesses and counterexamples -/

/-- A representative configuration: 250-byte-second example values with a
clock-drift factor of 2, radio data rate 2 kbit/s, 5 bytes of physical-layer
overhead, so a 70-byte MAC frame has air time (70+5)·8/2000 = 0.3 s, and
`sleepInterval = 1` gives redundancy `round(1/0.3) = 3`. -/
def pEx : Params :=
  { sleepInterval := 1
    listenInterval := 1 / 2
    randomTxOffset := 1 / 10
    maxMacFrameSize := 100
    macBufferSize := 16
    macFrameOverhead := 10
    cpuClockDrift := 2
    radioDataRate := 2
    phyLayerOverhead := 5
    radioDelayForValidCS := 1 / 8000 }

/-- The same configuration with a transmit buffer of capacity 2. -/
def pCap2 : Params := { pEx with macBufferSize := 2 }

/-- The same configuration with a transmit buffer of capacity 1. -/
def pCap1 : Params := { pEx with macBufferSize := 1 }

/-- A state holding a single 70-byte frame in the transmit buffer. -/
def sOneFrame : MacState := (pushBuffer pEx initMac (some ⟨70, 3⟩)).1

/-- A capacity-1 buffer filled to capacity. -/
def sFull1 : MacState := (pushBuffer pCap1 initMac (some ⟨20, 7⟩)).1

/-- A module mid-transmission (`MAC_STATE_TX`) with an empty buffer. -/
def sInTx : MacState := { initMac with macState := MState.tx }

/-- A concrete state for the C3 witness: carrier sensing with a pending
transmission, one tracked sleep-timer, one tracked wake-timer and an armed
carrier-sense-exit timer. -/
def sBusy : MacState :=
  { initMac with
    macState := MState.carrierSensing
    doTx := true
    disabled := false
    sleepTimers := [⟨true, 5⟩]
    wakeTimers := [⟨true, 7⟩]
    exitCS := some (1 / 100) }

/-- A state for the C7 witness: enabled, one tracked sleep-timer armed. -/
def sSleepArmed : MacState :=
  { initMac with disabled := false, sleepTimers := [⟨true, 1⟩] }

/-- A state for the C10 witness: mid-transmission with an armed
carrier-sense-exit timer and both duty-cycle timers tracked. -/
def sRx : MacState :=
  { initMac with
    macState := MState.tx
    disabled := false
    exitCS := some (1 / 500)
    sleepTimers := [⟨true, 2⟩]
    wakeTimers := [⟨true, 3⟩] }

/-- An enabled trace of the event system reaching a state with two armed
wake-timers: start up, wake, receive a payload, buffer it, carrier-sense the
channel free, transmit the burst, and observe two started/stopped
notification pairs from the (redundancy ≥ 1) burst. -/
def trace7 : List Event :=
  [Event.startup,
   Event.wakeFires 0,
   Event.netFrame 0 ⟨60, 1⟩,
   Event.pushBufFires,
   Event.pcsFires CSValidity.valid,
   Event.exitCSFires true,
   Event.checkTxFires,
   Event.startedTx,
   Event.stoppedTx,
   Event.startedTx,
   Event.stoppedTx]

/-- Claim C4 as stated: for every sequence of raw queue operations from the
initial state, the occupied-slot count stays within [0, capacity] and the
popped frames are exactly a prefix of the accepted pushed frames (FIFO, and
nothing popped that was not pushed). -/
def c4Stated (p : Params) : Prop :=
  ∀ ops : List QOp,
    (0 ≤ getTXBufferSize p (qrun p ops).st ∧
      getTXBufferSize p (qrun p ops).st ≤ (p.macBufferSize : ℤ)) ∧
    (qrun p ops).popped = (qrun p ops).pushed.take (qrun p ops).popped.length

/-- Claim C7 as stated: across every enabled interleaving of events from the
initial state, at most one sleep-timer and at most one wake-timer are armed. -/
def c7Stated (p : Params) : Prop :=
  ∀ es : List Event, traceEnabledFrom p initMac es = true →
    (runEvents p initMac es).sleepTimers.length ≤ 1 ∧
    (runEvents p initMac es).wakeTimers.length ≤ 1

/-! ## Circular-buffer arithmetic -/

theorem emod_eq_self {a m : ℤ} (h0 : 0 ≤ a) (h1 : a < m) : a.emod m = a :=
  Int.emod_eq_of_lt h0 h1

theorem emod_eq_sub {a m : ℤ} (h0 : m ≤ a) (h1 : a < 2 * m) :
    a.emod m = a - m := by
  have h2 : (a - m + m * 1).emod m = (a - m).emod m :=
    Int.add_mul_emod_self_left (a - m) m 1
  have h3 : a - m + m * 1 = a := by ring
  rw [h3] at h2
  rw [h2]
  exact Int.emod_eq_of_lt (by omega) (by omega)

theorem emod_add_inj {m h : ℤ} (h0 : 0 ≤ h) (h1 : h < m)
    {i j : ℤ} (hi0 : 0 ≤ i) (hi1 : i < m) (hj0 : 0 ≤ j) (hj1 : j < m)
    (heq : (h + i).emod m = (h + j).emod m) : i = j := by
  rcases lt_or_le (h + i) m with hlt | hge
  · rw [emod_eq_self (by omega) hlt] at heq
    rcases lt_or_le (h + j) m with hlt2 | hge2
    · rw [emod_eq_self (by omega) hlt2] at heq; omega
    · rw [emod_eq_sub hge2 (by omega)] at heq; omega
  · rw [emod_eq_sub hge (by omega)] at heq
    rcases lt_or_le (h + j) m with hlt2 | hge2
    · rw [emod_eq_self (by omega) hlt2] at heq; omega
    · rw [emod_eq_sub hge2 (by omega)] at heq; omega

theorem arraySize_pos (p : Params) : 0 < MAC_BUFFER_ARRAY_SIZE p := by
  simp only [MAC_BUFFER_ARRAY_SIZE]; omega

theorem RingRepr.size_eq {p : Params} {s : MacState} {q : List Frame}
    (hr : RingRepr p s q) : getTXBufferSize p s = (q.length : ℤ) := by
  have hm := arraySize_pos p
  have hM : MAC_BUFFER_ARRAY_SIZE p = (p.macBufferSize : ℤ) + 1 := rfl
  have hL : (q.length : ℤ) ≤ (p.macBufferSize : ℤ) := by exact_mod_cast hr.lenLe
  have h0 := hr.headLo
  have h1 := hr.headHi
  rcases lt_or_le (s.headTxBuffer + (q.length : ℤ)) (MAC_BUFFER_ARRAY_SIZE p)
    with hlt | hge
  · have ht : s.tailTxBuffer = s.headTxBuffer + (q.length : ℤ) := by
      rw [hr.tailEq, emod_eq_self (by omega) hlt]
    simp only [getTXBufferSize, ht]
    rw [if_neg (by omega)]
    ring
  · have ht : s.tailTxBuffer =
        s.headTxBuffer + (q.length : ℤ) - MAC_BUFFER_ARRAY_SIZE p := by
      rw [hr.tailEq, emod_eq_sub hge (by omega)]
    simp only [getTXBufferSize, ht]
    rw [if_pos (by omega)]
    ring

theorem RingRepr.empty_iff {p : Params} {s : MacState} {q : List Frame}
    (hr : RingRepr p s q) : s.tailTxBuffer = s.headTxBuffer ↔ q = [] := by
  have hm := arraySize_pos p
  have hM : MAC_BUFFER_ARRAY_SIZE p = (p.macBufferSize : ℤ) + 1 := rfl
  have hL : (q.length : ℤ) ≤ (p.macBufferSize : ℤ) := by exact_mod_cast hr.lenLe
  have h0 := hr.headLo
  have h1 := hr.headHi
  constructor
  · intro h
    by_contra hq
    have hlen : 0 < q.length := List.length_pos.mpr hq
    have hlen2 : (0 : ℤ) < (q.length : ℤ) := by exact_mod_cast hlen
    rcases lt_or_le (s.headTxBuffer + (q.length : ℤ)) (MAC_BUFFER_ARRAY_SIZE p)
      with hlt | hge
    · rw [hr.tailEq, emod_eq_self (by omega) hlt] at h; omega
    · rw [hr.tailEq, emod_eq_sub hge (by omega)] at h; omega
  · intro h
    subst h
    rw [hr.tailEq]
    simp only [List.length_nil, Nat.cast_zero, add_zero]
    exact emod_eq_self h0 h1

/-- A successful raw push: the returned code is 1 and the new state stores
`q ++ [f]`. -/
theorem pushBuffer_ok {p : Params} {s : MacState} {q : List Frame} (f : Frame)
    (hr : RingRepr p s q) (hlt : q.length < p.macBufferSize) :
    (pushBuffer p s (some f)).2 = true ∧
    RingRepr p (pushBuffer p s (some f)).1 (q ++ [f]) := by
  have hm := arraySize_pos p
  have hM : MAC_BUFFER_ARRAY_SIZE p = (p.macBufferSize : ℤ) + 1 := rfl
  have hL : (q.length : ℤ) < (p.macBufferSize : ℤ) := by exact_mod_cast hlt
  have h0 := hr.headLo
  have h1 := hr.headHi
  set M := MAC_BUFFER_ARRAY_SIZE p with hMdef
  set h := s.headTxBuffer with hhdef
  set L := (q.length : ℤ) with hLdef
  have hL0 : 0 ≤ L := by positivity
  -- the incremented tail is the canonical position of slot L
  have ht1 : (s.tailTxBuffer + 1).emod M = (h + (L + 1)).emod M := by
    rcases lt_or_le (h + L) M with hlt1 | hge1
    · have ht : s.tailTxBuffer = h + L := by
        rw [hr.tailEq, emod_eq_self (by omega) hlt1]
      rw [ht]; ring_nf
    · have ht : s.tailTxBuffer = h + L - M := by
        rw [hr.tailEq, emod_eq_sub hge1 (by omega)]
      rw [ht]
      have hx : h + L - M + 1 = h + (L + 1) - M := by ring
      rw [hx, emod_eq_self (by omega) (by omega),
        emod_eq_sub (by omega) (by omega)]
  have htail : (h + (L + 1)).emod M =
      if h + (L + 1) < M then h + (L + 1) else h + (L + 1) - M := by
    split
    · exact emod_eq_self (by omega) (by assumption)
    · exact emod_eq_sub (by omega) (by omega)
  have hne : ¬ (s.tailTxBuffer + 1).emod M = h := by
    rw [ht1, htail]
    split <;> omega
  -- the slot written is the old canonical tail position (h + L) mod M
  have hwrite :
      (if (s.tailTxBuffer + 1).emod M = 0 then (M - 1).toNat
        else ((s.tailTxBuffer + 1).emod M - 1).toNat) = ((h + L).emod M).toNat := by
    rw [ht1, htail]
    rcases lt_or_le (h + L) M with hlt1 | hge1
    · rw [emod_eq_self (by omega) hlt1]
      rcases lt_or_le (h + (L + 1)) M with hlt2 | hge2
      · have hz : ¬ (h + (L + 1) = 0) := by omega
        rw [if_pos hlt2, if_neg hz]
        congr 1; omega
      · have hEq : h + (L + 1) = M := by omega
        have hnlt : ¬ (h + (L + 1) < M) := by omega
        have hz : h + (L + 1) - M = 0 := by omega
        rw [if_neg hnlt, if_pos hz]
        congr 1; omega
    · have hnlt : ¬ (h + (L + 1) < M) := by omega
      have hz : ¬ (h + (L + 1) - M = 0) := by omega
      rw [emod_eq_sub hge1 (by omega), if_neg hnlt, if_neg hz]
      congr 1; omega
  have hres : (pushBuffer p s (some f)).1 =
      { s with tailTxBuffer := (h + (L + 1)).emod M,
               schedTXBuffer :=
                 Function.update s.schedTXBuffer ((h + L).emod M).toNat f } := by
    simp only [pushBuffer]
    rw [if_neg hne, hwrite, ht1]
  refine ⟨?_, ?_⟩
  · simp only [pushBuffer]
    rw [if_neg hne]
  · rw [hres]
    refine ⟨h0, h1, ?_, ?_, ?_⟩
    · simpa using Nat.succ_le_of_lt hlt
    · simp only [List.length_append, List.length_singleton]
      push_cast
      ring_nf
    · intro i hi
      have hi2 : i < q.length + 1 := by
        simpa using hi
      rcases Nat.lt_or_ge i q.length with hiq | hiq
      · -- old slots are untouched by the write at slot L
        have hiZ : (i : ℤ) < (q.length : ℤ) := by exact_mod_cast hiq
        have hi0 : (0 : ℤ) ≤ (i : ℤ) := by positivity
        have hne2 : ((h + (i : ℤ)).emod M).toNat ≠ ((h + L).emod M).toNat := by
          intro hcontra
          have hia : 0 ≤ (h + (i : ℤ)).emod M := Int.emod_nonneg _ (by omega)
          have hib : 0 ≤ (h + L).emod M := Int.emod_nonneg _ (by omega)
          have hZeq : (h + (i : ℤ)).emod M = (h + L).emod M := by omega
          have hiL : (i : ℤ) = L :=
            emod_add_inj h0 h1 hi0 (by omega) hL0 (by omega) hZeq
          omega
        show Function.update s.schedTXBuffer ((h + L).emod M).toNat f
            ((h + (i : ℤ)).emod M).toNat = (q ++ [f]).get ⟨i, hi⟩
        rw [Function.update_noteq hne2]
        have hsl := hr.slotsEq i hiq
        rw [hsl, List.get_eq_getElem, List.get_eq_getElem]
        exact (List.getElem_append_left hiq).symm
      · have hiL : i = q.length := by omega
        subst hiL
        show Function.update s.schedTXBuffer ((h + L).emod M).toNat f
            ((h + L).emod M).toNat = (q ++ [f]).get ⟨q.length, hi⟩
        rw [Function.update_same, List.get_eq_getElem]
        simp

/-- A push against a full buffer: the returned code is 0 and the state still
stores `q` (the tail-pointer reset restores the original tail). -/
theorem pushBuffer_full {p : Params} {s : MacState} {q : List Frame} (f : Frame)
    (hr : RingRepr p s q) (heq : q.length = p.macBufferSize) :
    (pushBuffer p s (some f)).2 = false ∧
    (pushBuffer p s (some f)).1.schedTXBuffer = s.schedTXBuffer ∧
    (pushBuffer p s (some f)).1.headTxBuffer = s.headTxBuffer ∧
    (pushBuffer p s (some f)).1.tailTxBuffer = s.tailTxBuffer ∧
    RingRepr p (pushBuffer p s (some f)).1 q := by
  have hm := arraySize_pos p
  have hM : MAC_BUFFER_ARRAY_SIZE p = (p.macBufferSize : ℤ) + 1 := rfl
  have hL : (q.length : ℤ) = (p.macBufferSize : ℤ) := by exact_mod_cast heq
  have h0 := hr.headLo
  have h1 := hr.headHi
  set M := MAC_BUFFER_ARRAY_SIZE p with hMdef
  set h := s.headTxBuffer with hhdef
  set L := (q.length : ℤ) with hLdef
  have hL0 : 0 ≤ L := by positivity
  have hguard : (s.tailTxBuffer + 1).emod M = h := by
    rcases lt_or_le (h + L) M with hlt1 | hge1
    · have ht : s.tailTxBuffer = h + L := by
        rw [hr.tailEq, emod_eq_self (by omega) hlt1]
      rw [ht, show h + L + 1 = M by omega]
      rw [show h = (0 : ℤ) by omega]
      rw [emod_eq_sub (by omega) (by omega)]
      omega
    · have ht : s.tailTxBuffer = h + L - M := by
        rw [hr.tailEq, emod_eq_sub hge1 (by omega)]
      rw [ht, show h + L - M + 1 = h by omega]
      exact emod_eq_self h0 h1
  have htailval : s.tailTxBuffer = (if h = 0 then M - 1 else h - 1) := by
    rcases lt_or_le (h + L) M with hlt1 | hge1
    · have ht : s.tailTxBuffer = h + L := by
        rw [hr.tailEq, emod_eq_self (by omega) hlt1]
      rw [ht]; split <;> omega
    · have ht : s.tailTxBuffer = h + L - M := by
        rw [hr.tailEq, emod_eq_sub hge1 (by omega)]
      rw [ht]; split <;> omega
  have hreset : (if (s.tailTxBuffer + 1).emod M = 0 then M - 1
      else (s.tailTxBuffer + 1).emod M - 1) = s.tailTxBuffer := by
    rw [hguard, htailval]
  simp only [pushBuffer]
  rw [if_pos hguard]
  refine ⟨rfl, rfl, rfl, hreset, ?_⟩
  refine ⟨h0, h1, hr.lenLe, ?_, hr.slotsEq⟩
  rw [hreset]
  exact hr.tailEq

/-- A pop from a non-empty buffer returns the queue head and the new state
stores the queue tail. -/
theorem popTxBuffer_ok {p : Params} {s : MacState} {f : Frame} {q : List Frame}
    (hr : RingRepr p s (f :: q)) :
    (popTxBuffer p s).1 = some f ∧ RingRepr p (popTxBuffer p s).2 q := by
  have hm := arraySize_pos p
  have hM : MAC_BUFFER_ARRAY_SIZE p = (p.macBufferSize : ℤ) + 1 := rfl
  have hL : ((f :: q).length : ℤ) ≤ (p.macBufferSize : ℤ) := by
    exact_mod_cast hr.lenLe
  have hL2 : (q.length : ℤ) + 1 ≤ (p.macBufferSize : ℤ) := by
    simpa [List.length_cons] using hL
  have h0 := hr.headLo
  have h1 := hr.headHi
  set M := MAC_BUFFER_ARRAY_SIZE p with hMdef
  set h := s.headTxBuffer with hhdef
  have hne : ¬ s.tailTxBuffer = s.headTxBuffer := by
    rw [hr.empty_iff]
    simp
  have hhead : s.schedTXBuffer s.headTxBuffer.toNat = f := by
    have := hr.slotsEq 0 (by simp)
    simpa [emod_eq_self h0 h1] using this
  have hq0 : (0 : ℤ) ≤ (q.length : ℤ) := by positivity
  have hfst : (popTxBuffer p s).1 = some (s.schedTXBuffer s.headTxBuffer.toNat) := by
    simp only [popTxBuffer]
    rw [if_neg hne]
  have hH : (popTxBuffer p s).2.headTxBuffer = (h + 1).emod M := by
    simp only [popTxBuffer]
    rw [if_neg hne]
  have hT : (popTxBuffer p s).2.tailTxBuffer = s.tailTxBuffer := by
    simp only [popTxBuffer]
    rw [if_neg hne]
  have hS : (popTxBuffer p s).2.schedTXBuffer = s.schedTXBuffer := by
    simp only [popTxBuffer]
    rw [if_neg hne]
  have htail : s.tailTxBuffer = (h + ((q.length : ℤ) + 1)).emod M := by
    have h3 := hr.tailEq
    rw [show (((f :: q).length : ℤ)) = (q.length : ℤ) + 1 by
      push_cast [List.length_cons]; ring] at h3
    exact h3
  constructor
  · rw [hfst, hhead]
  · refine ⟨?_, ?_, ?_, ?_, ?_⟩
    · rw [hH]
      exact Int.emod_nonneg _ (by omega)
    · rw [hH]
      exact Int.emod_lt_of_pos _ hm
    · have h3 : (f :: q).length ≤ p.macBufferSize := hr.lenLe
      simp only [List.length_cons] at h3
      omega
    · rw [hT, hH]
      rcases lt_or_le (h + 1) M with hlt1 | hge1
      · have hin : (h + 1).emod M = h + 1 := emod_eq_self (by omega) hlt1
        rw [hin, htail]
        congr 1
        ring
      · have hEq : h + 1 = M := by omega
        have hin : (h + 1).emod M = 0 := by
          rw [hEq]
          exact Int.emod_self
        have e1 : ((q.length : ℤ) + M).emod M = (q.length : ℤ) := by
          rw [emod_eq_sub (by omega) (by omega)]
          omega
        rw [hin, htail]
        rw [show (0 : ℤ) + (q.length : ℤ) = (q.length : ℤ) by ring]
        rw [show h + ((q.length : ℤ) + 1) = (q.length : ℤ) + M by omega]
        rw [e1, emod_eq_self hq0 (by omega)]
    · intro i hi
      have hiM : (i : ℤ) < (p.macBufferSize : ℤ) := by
        have h4 : (i : ℤ) < (q.length : ℤ) := by exact_mod_cast hi
        omega
      have hi0 : (0 : ℤ) ≤ (i : ℤ) := by positivity
      rw [hS, hH]
      have hstep : ((h + 1).emod M + (i : ℤ)).emod M =
          (h + ((i : ℤ) + 1)).emod M := by
        rcases lt_or_le (h + 1) M with hlt1 | hge1
        · have hin : (h + 1).emod M = h + 1 := emod_eq_self (by omega) hlt1
          rw [hin]
          congr 1
          ring
        · have hEq : h + 1 = M := by omega
          have hin : (h + 1).emod M = 0 := by
            rw [hEq]
            exact Int.emod_self
          have e1 : ((i : ℤ) + M).emod M = (i : ℤ) := by
            rw [emod_eq_sub (by omega) (by omega)]
            omega
          rw [hin]
          rw [show (0 : ℤ) + (i : ℤ) = (i : ℤ) by ring]
          rw [show h + ((i : ℤ) + 1) = (i : ℤ) + M by omega]
          rw [e1, emod_eq_self hi0 (by omega)]
      rw [hstep]
      have hsl := hr.slotsEq (i + 1) (by simpa using Nat.succ_lt_succ hi)
      rw [show (h + ((i : ℤ) + 1)) = (h + ((i + 1 : ℕ) : ℤ)) by push_cast; ring]
      rw [hsl]
      rfl

/-- The freshly initialized module represents the empty queue. -/
theorem ringRepr_initMac (p : Params) : RingRepr p initMac [] := by
  refine ⟨le_refl 0, arraySize_pos p, Nat.zero_le _, ?_, ?_⟩
  · show (0 : ℤ) = ((0 : ℤ) + ((0 : ℕ) : ℤ)).emod (MAC_BUFFER_ARRAY_SIZE p)
    rw [show (0 : ℤ) + ((0 : ℕ) : ℤ) = 0 by simp]
    rw [emod_eq_self (le_refl 0) (arraySize_pos p)]
  · intro i hi
    simp at hi

/-- Invariant of queue-operation runs: as long as `pop` is never applied to an
empty buffer, the state represents a queue `qq` and the accepted pushes are
the returned pops followed by `qq`. -/
theorem qfold_inv (p : Params) :
    ∀ (ops : List QOp) (r : QRun) (q : List Frame),
      RingRepr p r.st q → r.pushed = r.popped ++ q →
      noEmptyPopFrom p r.st ops = true →
      ∃ qq : List Frame,
        RingRepr p (ops.foldl (qstep p) r).st qq ∧
        (ops.foldl (qstep p) r).pushed =
          (ops.foldl (qstep p) r).popped ++ qq := by
  intro ops
  induction ops with
  | nil =>
    intro r q hr hpq _
    exact ⟨q, hr, hpq⟩
  | cons op rest ih =>
    intro r q hr hpq hne
    cases op with
    | push f =>
      rw [List.foldl_cons]
      have hne2 : noEmptyPopFrom p (pushBuffer p r.st (some f)).1 rest = true := by
        simpa [noEmptyPopFrom] using hne
      rcases lt_or_eq_of_le hr.lenLe with hlt | heq
      · obtain ⟨hflag, hr2⟩ := pushBuffer_ok f hr hlt
        refine ih (qstep p r (QOp.push f)) (q ++ [f]) ?_ ?_ ?_
        · simpa [qstep] using hr2
        · simp only [qstep, hflag, if_pos]
          rw [hpq, List.append_assoc]
        · simpa [qstep] using hne2
      · obtain ⟨hflag, _, _, _, hr2⟩ := pushBuffer_full f hr heq
        refine ih (qstep p r (QOp.push f)) q ?_ ?_ ?_
        · simpa [qstep] using hr2
        · simp only [qstep, hflag]
          simpa using hpq
        · simpa [qstep] using hne2
    | pop =>
      rw [List.foldl_cons]
      have hg : ¬ r.st.tailTxBuffer = r.st.headTxBuffer := by
        by_contra hcon
        simp [noEmptyPopFrom, hcon] at hne
      have hne2 : noEmptyPopFrom p (popTxBuffer p r.st).2 rest = true := by
        simp only [noEmptyPopFrom, Bool.and_eq_true, decide_eq_true_eq,
          Bool.not_eq_true', decide_eq_false_iff_not] at hne
        exact hne.2
      have hq2 : q ≠ [] := by
        intro hq
        exact hg (hr.empty_iff.mpr hq)
      match q, hq2 with
      | f :: q2, _ =>
        obtain ⟨hpop, hr2⟩ := popTxBuffer_ok hr
        refine ih (qstep p r QOp.pop) q2 ?_ ?_ ?_
        · simpa [qstep] using hr2
        · simp only [qstep, hpop, Option.toList_some]
          rw [hpq, List.append_assoc]
          rfl
        · simpa [qstep] using hne2

/-! ## Timer-discipline helpers -/

theorem cancelTracked_of_allTracked {l : List TimerEntry}
    (h : ∀ e ∈ l, e.tracked = true) : cancelTracked l = [] := by
  simp only [cancelTracked, List.filter_eq_nil_iff]
  intro e he
  simp [h e he]

theorem untrackAll_length (l : List TimerEntry) :
    (untrackAll l).length = l.length := by
  simp [untrackAll]

theorem armTracked_nil (d : ℚ) : armTracked [] d = [⟨true, d⟩] := rfl

theorem timersOk_armCancel {l : List TimerEntry} {d : ℚ}
    (h : ∀ e ∈ l, e.tracked = true) :
    armTracked (cancelTracked l) d = [⟨true, d⟩] := by
  rw [cancelTracked_of_allTracked h, armTracked_nil]

theorem eraseIdx_of_short {l : List TimerEntry} {i : ℕ}
    (hlen : l.length ≤ 1) (hi : i < l.length) : l.eraseIdx i = [] := by
  match l, hlen, hi with
  | [x], _, hi =>
    have : i = 0 := by
      simp only [List.length_singleton] at hi
      omega
    subst this
    rfl

theorem pushBuffer_timers (p : Params) (s : MacState) (of : Option Frame) :
    (pushBuffer p s of).1.sleepTimers = s.sleepTimers ∧
    (pushBuffer p s of).1.wakeTimers = s.wakeTimers := by
  cases of with
  | none => exact ⟨rfl, rfl⟩
  | some f =>
    constructor <;> (simp only [pushBuffer]; split <;> rfl)

theorem popTxBuffer_timers (p : Params) (s : MacState) :
    (popTxBuffer p s).2.sleepTimers = s.sleepTimers ∧
    (popTxBuffer p s).2.wakeTimers = s.wakeTimers := by
  constructor <;> (simp only [popTxBuffer]; split <;> rfl)

theorem sendData_timers (p : Params) (s : MacState) :
    (sendData p s).sleepTimers = s.sleepTimers ∧
    (sendData p s).wakeTimers = s.wakeTimers := by
  obtain ⟨h1, h2⟩ := popTxBuffer_timers p s
  simp only [sendData]
  split
  · exact ⟨rfl, rfl⟩
  split
  · split
    · exact ⟨h1, h2⟩
    · exact ⟨h1, h2⟩
  · exact ⟨rfl, rfl⟩

theorem handleNetworkLayerFrame_timers (p : Params) (rand : ℚ) (nf : Frame)
    (s : MacState) :
    (handleNetworkLayerFrame p rand nf s).sleepTimers = s.sleepTimers ∧
    (handleNetworkLayerFrame p rand nf s).wakeTimers = s.wakeTimers := by
  simp only [handleNetworkLayerFrame]
  split
  · exact ⟨rfl, rfl⟩
  · split <;> exact ⟨rfl, rfl⟩

theorem pushFrameIntoBuffer_timers (p : Params) (f : Frame) (s : MacState) :
    (pushFrameIntoBuffer p f s).sleepTimers = s.sleepTimers ∧
    (pushFrameIntoBuffer p f s).wakeTimers = s.wakeTimers := by
  simp only [pushFrameIntoBuffer]
  split
  · exact ⟨rfl, rfl⟩
  · exact pushBuffer_timers p s (some f)

theorem performCarrierSense_timers (p : Params) (r : CSValidity)
    (s : MacState) :
    (performCarrierSense p r s).sleepTimers = s.sleepTimers ∧
    (performCarrierSense p r s).wakeTimers = s.wakeTimers := by
  simp only [performCarrierSense]
  split
  · cases r <;> exact ⟨rfl, rfl⟩
  · exact ⟨rfl, rfl⟩

theorem startedTxHandler_timers (s : MacState) :
    (startedTxHandler s).sleepTimers = s.sleepTimers ∧
    (startedTxHandler s).wakeTimers = s.wakeTimers := by
  simp only [startedTxHandler]
  split
  · exact ⟨rfl, rfl⟩
  split
  · exact ⟨rfl, rfl⟩
  · exact ⟨rfl, rfl⟩

theorem initiateCarrierSense_timers_noTx (p : Params) (s : MacState)
    (h : s.doTx = false) :
    (initiateCarrierSense p s).sleepTimers = s.sleepTimers ∧
    (initiateCarrierSense p s).wakeTimers = s.wakeTimers := by
  simp only [initiateCarrierSense, h]
  split
  · simp
  · exact ⟨rfl, rfl⟩

theorem timersOk_dutyCycleSleep (p : Params) (s : MacState)
    (hs : s.sleepTimers = [])
    (hwl : s.wakeTimers.length ≤ 1)
    (hwt : ∀ e ∈ s.wakeTimers, e.tracked = true) :
    TimersOk (dutyCycle p SLEEP s) := by
  simp only [dutyCycle, if_pos]
  split
  · -- expectingRx, demoted to default before the branch on the state
    split
    · refine ⟨?_, ?_, ?_, ?_⟩
      · simp [hs, untrackAll]
      · simp [timersOk_armCancel hwt]
      · simp [hs, untrackAll]
      · simp [timersOk_armCancel hwt]
    · exact ⟨by simp [hs, untrackAll], hwl, by simp [hs, untrackAll], hwt⟩
  · split
    · refine ⟨?_, ?_, ?_, ?_⟩
      · simp [hs, untrackAll]
      · simp [timersOk_armCancel hwt]
      · simp [hs, untrackAll]
      · simp [timersOk_armCancel hwt]
    · exact ⟨by simp [hs, untrackAll], hwl, by simp [hs, untrackAll], hwt⟩

theorem timersOk_carrierBusy (p : Params) (s : MacState)
    (hsl : s.sleepTimers.length ≤ 1) (hwl : s.wakeTimers.length ≤ 1)
    (hst : ∀ e ∈ s.sleepTimers, e.tracked = true)
    (hwt : ∀ e ∈ s.wakeTimers, e.tracked = true) :
    TimersOk (carrierBusy p s) := by
  simp only [carrierBusy]
  split
  · split
    · refine ⟨?_, ?_, ?_, ?_⟩ <;>
        simp [timersOk_armCancel hst, cancelTracked_of_allTracked hwt]
    · refine ⟨?_, ?_, ?_, ?_⟩ <;>
        simp [timersOk_armCancel hst, cancelTracked_of_allTracked hwt]
  · exact ⟨hsl, hwl, hst, hwt⟩

theorem timersOk_carrierFree (p : Params) (tl : Bool) (s : MacState)
    (hOk : TimersOk s) : TimersOk (carrierFree p tl s) := by
  obtain ⟨hsl, hwl, hst, hwt⟩ := hOk
  simp only [carrierFree]
  split
  · split
    · refine ⟨?_, ?_, ?_, ?_⟩ <;>
        simp [cancelTracked_of_allTracked hst, cancelTracked_of_allTracked hwt]
    · rename_i hdo
      have hdoF : ({ s with macState := MState.default } : MacState).doTx = false := by
        simp only [Bool.not_eq_true] at hdo
        exact hdo
      split
      · obtain ⟨e1, e2⟩ :=
          initiateCarrierSense_timers_noTx p { s with macState := MState.default } hdoF
        exact ⟨by rw [e1]; exact hsl, by rw [e2]; exact hwl,
          by rw [e1]; exact hst, by rw [e2]; exact hwt⟩
      · exact ⟨hsl, hwl, hst, hwt⟩
  · exact ⟨hsl, hwl, hst, hwt⟩

theorem timersOk_frameReceived (s : MacState)
    (hst : ∀ e ∈ s.sleepTimers, e.tracked = true)
    (hwt : ∀ e ∈ s.wakeTimers, e.tracked = true) :
    TimersOk (frameReceivedHandler s) := by
  refine ⟨?_, ?_, ?_, ?_⟩ <;>
    simp [frameReceivedHandler, timersOk_armCancel hst,
      cancelTracked_of_allTracked hwt]

theorem timersOk_of_eq {s t : MacState}
    (h1 : t.sleepTimers = s.sleepTimers) (h2 : t.wakeTimers = s.wakeTimers)
    (hOk : TimersOk s) : TimersOk t := by
  obtain ⟨hsl, hwl, hst, hwt⟩ := hOk
  exact ⟨by rw [h1]; exact hsl, by rw [h2]; exact hwl,
    by rw [h1]; exact hst, by rw [h2]; exact hwt⟩

/-! ## Claim theorems -/

/-- Claim C1: when the channel is confirmed free and the transmit queue is
non-empty (`tailTxBuffer ≠ headTxBuffer`), the MAC pops the head frame and,
as a side effect of the pop, computes
`frameAirTime = (serialized byte length + physical-layer overhead) * 8 / bit
rate` — the bit rate being `1000 * radioDataRate` bit/s since `radioDataRate`
is given in kbit/s — and `redundancy = round(sleepInterval / frameAirTime)`,
rounded to the nearest integer with ties rounded up: the source's
`(int)(x + 0.5)` equals Mathlib's `round` (which is exactly round-half-up)
for the nonnegative quotient.  The example of the claim (sleepInterval 1 s,
air time 0.3 s, redundancy 3) is checked in the witness. -/
theorem claim_C1 (p : Params) (s : MacState)
    (hne : s.tailTxBuffer ≠ s.headTxBuffer)
    (hsl : 0 < p.sleepInterval) (hdr : 0 < p.radioDataRate) :
    (popTxBuffer p s).1 = some (s.schedTXBuffer s.headTxBuffer.toNat) ∧
    (popTxBuffer p s).2.dataTXtime =
      (((s.schedTXBuffer s.headTxBuffer.toNat).len : ℚ) +
          (p.phyLayerOverhead : ℚ)) * 8 / (1000 * p.radioDataRate) ∧
    (popTxBuffer p s).2.redundancy =
      round (p.sleepInterval / (popTxBuffer p s).2.dataTXtime) := by
  have hfst : (popTxBuffer p s).1 =
      some (s.schedTXBuffer s.headTxBuffer.toNat) := by
    simp only [popTxBuffer]
    rw [if_neg hne]
  have hd : (popTxBuffer p s).2.dataTXtime =
      (((s.schedTXBuffer s.headTxBuffer.toNat).len : ℚ) +
          (p.phyLayerOverhead : ℚ)) * 8 / (1000 * p.radioDataRate) := by
    simp only [popTxBuffer]
    rw [if_neg hne]
  have hred : (popTxBuffer p s).2.redundancy =
      cIntTrunc (p.sleepInterval /
        ((((s.schedTXBuffer s.headTxBuffer.toNat).len : ℚ) +
          (p.phyLayerOverhead : ℚ)) * 8 / (1000 * p.radioDataRate)) + 1 / 2) := by
    simp only [popTxBuffer]
    rw [if_neg hne]
  refine ⟨hfst, hd, ?_⟩
  rw [hred, hd]
  have hD : (0 : ℚ) ≤
      (((s.schedTXBuffer s.headTxBuffer.toNat).len : ℚ) +
          (p.phyLayerOverhead : ℚ)) * 8 / (1000 * p.radioDataRate) := by
    apply div_nonneg
    · positivity
    · nlinarith
  have hq : (0 : ℚ) ≤ p.sleepInterval /
      ((((s.schedTXBuffer s.headTxBuffer.toNat).len : ℚ) +
          (p.phyLayerOverhead : ℚ)) * 8 / (1000 * p.radioDataRate)) :=
    div_nonneg (le_of_lt hsl) hD
  have hnot : ¬ (p.sleepInterval /
      ((((s.schedTXBuffer s.headTxBuffer.toNat).len : ℚ) +
          (p.phyLayerOverhead : ℚ)) * 8 / (1000 * p.radioDataRate)) + 1 / 2 < 0) := by
    intro hcon
    linarith
  rw [cIntTrunc, if_neg hnot, round_eq]

/-- Witness for C1 at the claim's own example: a 70-byte frame with 5 bytes
of physical-layer overhead at 2 kbit/s has air time 0.3 s, and with
sleepInterval 1 s the computed redundancy is round(1/0.3) = 3. -/
theorem claim_C1_witness :
    sOneFrame.tailTxBuffer ≠ sOneFrame.headTxBuffer ∧
    (0 : ℚ) < pEx.sleepInterval ∧ (0 : ℚ) < pEx.radioDataRate ∧
    (popTxBuffer pEx sOneFrame).2.dataTXtime = 3 / 10 ∧
    (popTxBuffer pEx sOneFrame).2.redundancy = 3 ∧
    ((popTxBuffer pEx sOneFrame).1 =
      some (sOneFrame.schedTXBuffer sOneFrame.headTxBuffer.toNat) ∧
     (popTxBuffer pEx sOneFrame).2.dataTXtime =
      (((sOneFrame.schedTXBuffer sOneFrame.headTxBuffer.toNat).len : ℚ) +
          (pEx.phyLayerOverhead : ℚ)) * 8 / (1000 * pEx.radioDataRate) ∧
     (popTxBuffer pEx sOneFrame).2.redundancy =
      round (pEx.sleepInterval / (popTxBuffer pEx sOneFrame).2.dataTXtime)) :=
  ⟨by decide, by decide, by decide, by with_unfolding_all rfl,
    by with_unfolding_all rfl,
    claim_C1 pEx sOneFrame (by decide) (by decide) (by decide)⟩

/-- The redundancy computed by a successful pop is nonnegative (the rounded
quotient of positive quantities). -/
theorem popTxBuffer_redundancy_nonneg (p : Params) (s : MacState)
    (hne : s.tailTxBuffer ≠ s.headTxBuffer)
    (hsl : 0 < p.sleepInterval) (hdr : 0 < p.radioDataRate) :
    0 ≤ (popTxBuffer p s).2.redundancy := by
  have hred : (popTxBuffer p s).2.redundancy =
      cIntTrunc (p.sleepInterval /
        ((((s.schedTXBuffer s.headTxBuffer.toNat).len : ℚ) +
          (p.phyLayerOverhead : ℚ)) * 8 / (1000 * p.radioDataRate)) + 1 / 2) := by
    simp only [popTxBuffer]
    rw [if_neg hne]
  have hD : (0 : ℚ) ≤
      (((s.schedTXBuffer s.headTxBuffer.toNat).len : ℚ) +
          (p.phyLayerOverhead : ℚ)) * 8 / (1000 * p.radioDataRate) := by
    apply div_nonneg
    · positivity
    · nlinarith
  have hq : (0 : ℚ) ≤ p.sleepInterval /
      ((((s.schedTXBuffer s.headTxBuffer.toNat).len : ℚ) +
          (p.phyLayerOverhead : ℚ)) * 8 / (1000 * p.radioDataRate)) :=
    div_nonneg (le_of_lt hsl) hD
  rw [hred, cIntTrunc, if_neg (by intro hcon; linarith)]
  exact Int.floor_nonneg.mpr (by linarith)

/-- Claim C2: during a transmission burst — `sendData` running with the
queue non-empty in state TX or Idle — exactly `redundancy + 1` duplicate
copies of the popped head frame are handed to the radio, and the i-th copy
(i = 0..redundancy) is scheduled at delay `DRIFTED_TIME(i * dataTXtime)`,
i.e. i × frameAirTime multiplied by the clock-drift factor: the list of new
radio sends is exactly the map of that schedule over i = 0..redundancy. -/
theorem claim_C2 (p : Params) (s : MacState)
    (hne : BUFFER_IS_EMPTY s = false)
    (hmac : s.macState = MState.tx ∨ s.macState = MState.default)
    (hsl : 0 < p.sleepInterval) (hdr : 0 < p.radioDataRate) :
    ((((sendData p s).radioSends.drop s.radioSends.length).length : ℤ) =
      (sendData p s).redundancy + 1) ∧
    (sendData p s).radioSends.drop s.radioSends.length =
      (List.range ((sendData p s).redundancy + 1).toNat).map
        (fun (i : ℕ) => (s.schedTXBuffer s.headTxBuffer.toNat,
          DRIFTED_TIME p ((i : ℚ) * (sendData p s).dataTXtime))) := by
  have hgd : ¬ s.headTxBuffer = s.tailTxBuffer := by
    simpa [BUFFER_IS_EMPTY] using hne
  have hguard : s.tailTxBuffer ≠ s.headTxBuffer := fun h => hgd h.symm
  have hfst : (popTxBuffer p s).1 =
      some (s.schedTXBuffer s.headTxBuffer.toNat) := by
    simp only [popTxBuffer]
    rw [if_neg hguard]
  have hradio : (popTxBuffer p s).2.radioSends = s.radioSends := by
    simp only [popTxBuffer]
    rw [if_neg hguard]
  have hr0 : 0 ≤ (popTxBuffer p s).2.redundancy :=
    popTxBuffer_redundancy_nonneg p s hguard hsl hdr
  have hcond : (BUFFER_IS_EMPTY s = true) = False := by
    simp [hne]
  have hcond2 : (s.macState = MState.tx ∨ s.macState = MState.default) = True :=
    eq_true hmac
  have hC : sendData p s =
      { (popTxBuffer p s).2 with
        radioSends := (popTxBuffer p s).2.radioSends ++
          (List.range ((popTxBuffer p s).2.redundancy + 1).toNat).map
            (fun (i : ℕ) => (s.schedTXBuffer s.headTxBuffer.toNat,
              DRIFTED_TIME p ((i : ℚ) * (popTxBuffer p s).2.dataTXtime))),
        txStrobes := (popTxBuffer p s).2.txStrobes +
          ((popTxBuffer p s).2.redundancy + 1).toNat } := by
    simp only [sendData, hcond, hcond2, if_true, if_false, hfst]
  have hred2 : (sendData p s).redundancy = (popTxBuffer p s).2.redundancy := by
    rw [hC]
  have hdt2 : (sendData p s).dataTXtime = (popTxBuffer p s).2.dataTXtime := by
    rw [hC]
  have hlist : (sendData p s).radioSends.drop s.radioSends.length =
      (List.range ((popTxBuffer p s).2.redundancy + 1).toNat).map
        (fun (i : ℕ) => (s.schedTXBuffer s.headTxBuffer.toNat,
          DRIFTED_TIME p ((i : ℚ) * (popTxBuffer p s).2.dataTXtime))) := by
    rw [hC]
    show ((popTxBuffer p s).2.radioSends ++
        (List.range ((popTxBuffer p s).2.redundancy + 1).toNat).map
          (fun (i : ℕ) => (s.schedTXBuffer s.headTxBuffer.toNat,
            DRIFTED_TIME p ((i : ℚ) * (popTxBuffer p s).2.dataTXtime)))).drop
          s.radioSends.length =
      (List.range ((popTxBuffer p s).2.redundancy + 1).toNat).map
        (fun (i : ℕ) => (s.schedTXBuffer s.headTxBuffer.toNat,
          DRIFTED_TIME p ((i : ℚ) * (popTxBuffer p s).2.dataTXtime)))
    rw [hradio, List.drop_left]
  constructor
  · rw [hlist, hred2]
    simp only [List.length_map, List.length_range]
    exact Int.toNat_of_nonneg
      (by omega : (0 : ℤ) ≤ (popTxBuffer p s).2.redundancy + 1)
  · rw [hred2, hdt2]
    exact hlist

/-- Witness for C2: the one-frame state at the example configuration. -/
theorem claim_C2_witness :
    BUFFER_IS_EMPTY sOneFrame = false ∧
    (sOneFrame.macState = MState.tx ∨ sOneFrame.macState = MState.default) ∧
    (((((sendData pEx sOneFrame).radioSends.drop
          sOneFrame.radioSends.length).length : ℤ) =
        (sendData pEx sOneFrame).redundancy + 1) ∧
      (sendData pEx sOneFrame).radioSends.drop sOneFrame.radioSends.length =
        (List.range ((sendData pEx sOneFrame).redundancy + 1).toNat).map
          (fun (i : ℕ) => (sOneFrame.schedTXBuffer sOneFrame.headTxBuffer.toNat,
            DRIFTED_TIME pEx ((i : ℚ) * (sendData pEx sOneFrame).dataTXtime)))) :=
  ⟨by decide, by decide,
    claim_C2 pEx sOneFrame (by decide) (by decide) (by decide) (by decide)⟩

/-- Claim C3: when the channel is reported busy while the state is
CarrierSensing or Idle and the pending-transmit flag `doTx` is set, the
pending frame is retained (head, tail and buffer contents unchanged), the
carrier-sense-exit timer and both duty-cycle timers are cancelled, a
sleep-timer is armed with the drift-adjusted air time of two maximum-sized
MAC frames at the current bit rate, and the state becomes ExpectingRx. -/
theorem claim_C3 (p : Params) (s : MacState)
    (hmac : s.macState = MState.carrierSensing ∨ s.macState = MState.default)
    (hdo : s.doTx = true)
    (hts : ∀ e ∈ s.sleepTimers, e.tracked = true)
    (htw : ∀ e ∈ s.wakeTimers, e.tracked = true) :
    (carrierBusy p s).macState = MState.expectingRx ∧
    (carrierBusy p s).headTxBuffer = s.headTxBuffer ∧
    (carrierBusy p s).tailTxBuffer = s.tailTxBuffer ∧
    (carrierBusy p s).schedTXBuffer = s.schedTXBuffer ∧
    (carrierBusy p s).exitCS = none ∧
    (carrierBusy p s).wakeTimers = [] ∧
    (carrierBusy p s).sleepTimers =
      [⟨true, DRIFTED_TIME p
        ((2 * (p.maxMacFrameSize : ℚ) * 8) / (1000 * p.radioDataRate))⟩] := by
  have hmac2 : (({ s with exitCS := none } : MacState).macState =
      MState.carrierSensing ∨
      ({ s with exitCS := none } : MacState).macState = MState.default) := hmac
  have hdo2 : ({ s with exitCS := none } : MacState).doTx = true := hdo
  have hX : carrierBusy p s =
      { s with
        exitCS := none
        wakeTimers := cancelTracked s.wakeTimers
        sleepTimers := armTracked (cancelTracked s.sleepTimers)
          (DRIFTED_TIME p
            ((2 * (p.maxMacFrameSize : ℚ) * 8) / (1000 * p.radioDataRate)))
        macState := MState.expectingRx } := by
    simp only [carrierBusy]
    rw [if_pos hmac2, if_pos hdo2]
  refine ⟨by rw [hX], by rw [hX], by rw [hX], by rw [hX], by rw [hX], ?_, ?_⟩
  · rw [hX]
    exact cancelTracked_of_allTracked htw
  · rw [hX]
    exact timersOk_armCancel hts

/-- Witness for C3 at the concrete busy state. -/
theorem claim_C3_witness :
    (sBusy.macState = MState.carrierSensing ∨
      sBusy.macState = MState.default) ∧
    sBusy.doTx = true ∧
    ((carrierBusy pEx sBusy).macState = MState.expectingRx ∧
     (carrierBusy pEx sBusy).headTxBuffer = sBusy.headTxBuffer ∧
     (carrierBusy pEx sBusy).tailTxBuffer = sBusy.tailTxBuffer ∧
     (carrierBusy pEx sBusy).schedTXBuffer = sBusy.schedTXBuffer ∧
     (carrierBusy pEx sBusy).exitCS = none ∧
     (carrierBusy pEx sBusy).wakeTimers = [] ∧
     (carrierBusy pEx sBusy).sleepTimers =
       [⟨true, DRIFTED_TIME pEx
         ((2 * (pEx.maxMacFrameSize : ℚ) * 8) / (1000 * pEx.radioDataRate))⟩]) :=
  ⟨by decide, by decide,
    claim_C3 pEx sBusy (by decide) (by decide) (by decide) (by decide)⟩

/-- Claim C4 as stated is false on the code: the sequence [pop, pop] from
the initial (empty) state makes the first pop corrupt the ring by
decrementing the tail pointer, after which the second pop "succeeds" and
returns the junk content of a slot that was never pushed, so the popped
frames are not a prefix of the pushed frames. -/
theorem claim_C4_counterexample : ¬ c4Stated pCap2 := by
  intro h
  have h2 := (h [QOp.pop, QOp.pop]).2
  revert h2
  decide

/-- Claim C4 amended: for every sequence of push and pop operations in which
pop is never invoked on an empty queue, the occupied-slot count reported by
`getTXBufferSize` stays in [0, macBufferSize], and the frames popped are
exactly the first accepted pushed frames in push order (FIFO; nothing is
popped that was not pushed). -/
theorem claim_C4_amended (p : Params) (ops : List QOp)
    (h : noEmptyPopFrom p initMac ops = true) :
    (0 ≤ getTXBufferSize p (qrun p ops).st ∧
      getTXBufferSize p (qrun p ops).st ≤ (p.macBufferSize : ℤ)) ∧
    (qrun p ops).popped = (qrun p ops).pushed.take (qrun p ops).popped.length := by
  obtain ⟨qq, hr, hpq⟩ :=
    qfold_inv p ops ⟨initMac, [], []⟩ [] (ringRepr_initMac p) rfl h
  have hsize := hr.size_eq
  refine ⟨⟨?_, ?_⟩, ?_⟩
  · show 0 ≤ getTXBufferSize p (ops.foldl (qstep p) ⟨initMac, [], []⟩).st
    rw [hsize]
    positivity
  · show getTXBufferSize p (ops.foldl (qstep p) ⟨initMac, [], []⟩).st ≤
      (p.macBufferSize : ℤ)
    rw [hsize]
    exact_mod_cast hr.lenLe
  · show (ops.foldl (qstep p) ⟨initMac, [], []⟩).popped =
      (ops.foldl (qstep p) ⟨initMac, [], []⟩).pushed.take
        (ops.foldl (qstep p) ⟨initMac, [], []⟩).popped.length
    rw [hpq]
    exact (List.take_left _ _).symm

/-- Witness for the amended C4: one push followed by one pop. -/
theorem claim_C4_witness :
    noEmptyPopFrom pEx initMac [QOp.push ⟨70, 3⟩, QOp.pop] = true ∧
    ((0 ≤ getTXBufferSize pEx (qrun pEx [QOp.push ⟨70, 3⟩, QOp.pop]).st ∧
      getTXBufferSize pEx (qrun pEx [QOp.push ⟨70, 3⟩, QOp.pop]).st ≤
        (pEx.macBufferSize : ℤ)) ∧
     (qrun pEx [QOp.push ⟨70, 3⟩, QOp.pop]).popped =
       (qrun pEx [QOp.push ⟨70, 3⟩, QOp.pop]).pushed.take
         (qrun pEx [QOp.push ⟨70, 3⟩, QOp.pop]).popped.length) :=
  ⟨by decide, claim_C4_amended pEx [QOp.push ⟨70, 3⟩, QOp.pop] (by decide)⟩

/-- Claim C5: popping from an empty transmit queue (head index equal to tail
index) is an error condition that returns no frame — the pop returns NULL
rather than any stale frame — and it is surfaced (the source logs the
`"Trying to pop EMPTY TxBuffer!!"` diagnostic, counted by `popEmptyLog`)
rather than masked. -/
theorem claim_C5 (p : Params) (s : MacState)
    (h : s.tailTxBuffer = s.headTxBuffer) :
    (popTxBuffer p s).1 = none ∧
    (popTxBuffer p s).2.popEmptyLog = s.popEmptyLog + 1 := by
  constructor <;> (simp only [popTxBuffer]; rw [if_pos h])

/-- Witness for C5 at the freshly initialized (empty) state. -/
theorem claim_C5_witness :
    initMac.tailTxBuffer = initMac.headTxBuffer ∧
    ((popTxBuffer pEx initMac).1 = none ∧
     (popTxBuffer pEx initMac).2.popEmptyLog = initMac.popEmptyLog + 1) :=
  ⟨by decide, claim_C5 pEx initMac (by decide)⟩

/-- Claim C6 as stated is false for a payload arriving from the network
layer: `handleNetworkLayerFrame` is guarded by `if (!BUFFER_IS_FULL)` with
no else branch, so with the queue already holding macBufferSize frames an
arriving payload is dropped silently — zero `bufferFull` notifications are
emitted, not exactly one, and nothing is queued for pushing. -/
theorem claim_C6_counterexample :
    getTXBufferSize pCap1 sFull1 = (pCap1.macBufferSize : ℤ) ∧
    (handleNetworkLayerFrame pCap1 0 ⟨5, 9⟩ sFull1).netNotifs = 0 ∧
    (handleNetworkLayerFrame pCap1 0 ⟨5, 9⟩ sFull1).pushPending = [] ∧
    ¬ ((0 : ℕ) = 1) :=
  ⟨by decide, by decide, by decide, by decide⟩

/-- Claim C6 amended: the exactly-once `bufferFull` notification is emitted
by the buffered push step (`pushFrameIntoBuffer`, running on the
`MAC_FRAME_SELF_PUSH_TX_BUFFER` self-event): when it finds the queue holding
macBufferSize frames, the push fails, the queue (head, tail and contents)
and its size are unchanged, and exactly one notification is sent; a fresh
payload arriving from the network layer at a full queue is instead dropped
silently with no notification. -/
theorem claim_C6_amended (p : Params) (f : Frame) (s : MacState)
    (h : getTXBufferSize p s = (p.macBufferSize : ℤ)) :
    (pushFrameIntoBuffer p f s).netNotifs = s.netNotifs + 1 ∧
    (pushFrameIntoBuffer p f s).headTxBuffer = s.headTxBuffer ∧
    (pushFrameIntoBuffer p f s).tailTxBuffer = s.tailTxBuffer ∧
    (pushFrameIntoBuffer p f s).schedTXBuffer = s.schedTXBuffer ∧
    getTXBufferSize p (pushFrameIntoBuffer p f s) = (p.macBufferSize : ℤ) := by
  have hfull : BUFFER_IS_FULL p s = true := by
    simp [BUFFER_IS_FULL, h]
  have hX : pushFrameIntoBuffer p f s = { s with netNotifs := s.netNotifs + 1 } := by
    simp only [pushFrameIntoBuffer, hfull, if_true]
  refine ⟨by rw [hX], by rw [hX], by rw [hX], by rw [hX], ?_⟩
  rw [hX]
  exact h

/-- Witness for the amended C6 at the full capacity-1 buffer. -/
theorem claim_C6_witness :
    getTXBufferSize pCap1 sFull1 = (pCap1.macBufferSize : ℤ) ∧
    ((pushFrameIntoBuffer pCap1 ⟨5, 9⟩ sFull1).netNotifs = sFull1.netNotifs + 1 ∧
     (pushFrameIntoBuffer pCap1 ⟨5, 9⟩ sFull1).headTxBuffer = sFull1.headTxBuffer ∧
     (pushFrameIntoBuffer pCap1 ⟨5, 9⟩ sFull1).tailTxBuffer = sFull1.tailTxBuffer ∧
     (pushFrameIntoBuffer pCap1 ⟨5, 9⟩ sFull1).schedTXBuffer = sFull1.schedTXBuffer ∧
     getTXBufferSize pCap1 (pushFrameIntoBuffer pCap1 ⟨5, 9⟩ sFull1) =
       (pCap1.macBufferSize : ℤ)) :=
  ⟨by decide, claim_C6_amended pCap1 ⟨5, 9⟩ sFull1 (by decide)⟩

/-- Claim C7 as stated is false on the code: `finishDataTransmission` arms
its wake-timer without cancelling a pending one, so along an ordinary
enabled trace — startup, wake, payload arrival, push, channel-free carrier
sense, a redundancy-3 burst, and two transmit-started/stopped notification
pairs from the burst's copies — two wake-timers end up simultaneously
armed. -/
theorem claim_C7_counterexample : ¬ c7Stated pEx := by
  intro h
  have h2 := (h trace7 (by with_unfolding_all rfl)).2
  revert h2
  decide

/-- Claim C7 amended: the cancel-before-arm discipline holds for the
handlers of sleep-timer firing, payload arrival, buffer push, carrier-sense
perform/busy/free, transmit-queue check, transmit-started, frame reception
and energy exhaustion: each preserves "at most one armed sleep-timer and at
most one armed wake-timer, each tracked by its pointer".  It does not hold
for node startup, wake-timer firing with the pending-transmit flag set and
an empty queue, transmit initiation with an empty queue, or
transmit-stopped (`finishDataTransmission` arms a wake-timer without
cancelling, the counterexample's violation). -/
theorem claim_C7_amended (p : Params) (s : MacState) (e : Event)
    (hOk : TimersOk s) (hsafe : safeEvent e = true)
    (hen : enabled s e = true) : TimersOk (step p s e) := by
  obtain ⟨hsl, hwl, hst, hwt⟩ := hOk
  cases e with
  | startup => simp [safeEvent] at hsafe
  | wakeFires i => simp [safeEvent] at hsafe
  | initTxFires => simp [safeEvent] at hsafe
  | stoppedTx => simp [safeEvent] at hsafe
  | sleepFires i =>
    have hlen : i < s.sleepTimers.length := by
      simpa [enabled] using hen
    have hz : s.sleepTimers.eraseIdx i = [] := eraseIdx_of_short hsl hlen
    simp only [step]
    split
    · exact ⟨by simp [hz], hwl, by simp [hz], hwt⟩
    · exact timersOk_dutyCycleSleep p _ hz hwl hwt
  | netFrame rand nf =>
    simp only [step]
    split
    · exact ⟨hsl, hwl, hst, hwt⟩
    · obtain ⟨e1, e2⟩ := handleNetworkLayerFrame_timers p rand nf s
      exact timersOk_of_eq e1 e2 ⟨hsl, hwl, hst, hwt⟩
  | pushBufFires =>
    simp only [step]
    split
    · exact ⟨hsl, hwl, hst, hwt⟩
    · rename_i hd tl heq
      split
      · exact ⟨hsl, hwl, hst, hwt⟩
      · obtain ⟨e1, e2⟩ :=
          pushFrameIntoBuffer_timers p hd { s with pushPending := tl }
        exact timersOk_of_eq e1 e2 ⟨hsl, hwl, hst, hwt⟩
  | pcsFires reason =>
    simp only [step]
    split
    · exact ⟨hsl, hwl, hst, hwt⟩
    · rename_i hd tl heq
      split
      · exact ⟨hsl, hwl, hst, hwt⟩
      · obtain ⟨e1, e2⟩ :=
          performCarrierSense_timers p reason { s with pcsPending := tl }
        exact timersOk_of_eq e1 e2 ⟨hsl, hwl, hst, hwt⟩
  | carrierBusyEvt =>
    simp only [step]
    split
    · exact ⟨hsl, hwl, hst, hwt⟩
    · exact timersOk_carrierBusy p s hsl hwl hst hwt
  | exitCSFires tl =>
    simp only [step]
    split
    · exact ⟨hsl, hwl, hst, hwt⟩
    · exact timersOk_carrierFree p tl { s with exitCS := none }
        ⟨hsl, hwl, hst, hwt⟩
  | checkTxFires =>
    simp only [step]
    split
    · exact ⟨hsl, hwl, hst, hwt⟩
    · rename_i hd tl heq
      split
      · exact ⟨hsl, hwl, hst, hwt⟩
      · obtain ⟨e1, e2⟩ := sendData_timers p { s with checkTxPending := tl }
        exact timersOk_of_eq e1 e2 ⟨hsl, hwl, hst, hwt⟩
  | startedTx =>
    simp only [step]
    split
    · exact ⟨hsl, hwl, hst, hwt⟩
    · obtain ⟨e1, e2⟩ := startedTxHandler_timers
        { s with txStrobes := s.txStrobes - 1, txActive := true }
      exact timersOk_of_eq e1 e2 ⟨hsl, hwl, hst, hwt⟩
  | frameReceived f =>
    simp only [step]
    split
    · exact ⟨hsl, hwl, hst, hwt⟩
    · exact timersOk_frameReceived s hst hwt
  | outOfEnergy =>
    simp only [step]
    split
    · exact ⟨hsl, hwl, hst, hwt⟩
    · exact ⟨hsl, hwl, hst, hwt⟩

/-- Witness for the amended C7: firing the armed sleep-timer preserves the
timer discipline. -/
theorem claim_C7_witness :
    TimersOk sSleepArmed ∧
    safeEvent (Event.sleepFires 0) = true ∧
    enabled sSleepArmed (Event.sleepFires 0) = true ∧
    TimersOk (step pEx sSleepArmed (Event.sleepFires 0)) :=
  ⟨⟨by decide, by decide, by decide, by decide⟩, by decide, by decide,
    claim_C7_amended pEx sSleepArmed (Event.sleepFires 0)
      ⟨by decide, by decide, by decide, by decide⟩ (by decide) (by decide)⟩

/-- Claim C8 as stated is false on the code: finishing a transmission arms
the next wake-timer with the plain, undrifted `sleepInterval`
(`scheduleAt(simTime() + sleepInterval, ...)`, no `DRIFTED_TIME`), so with a
clock-drift factor of 2 the armed delay is 1 s where the drift-adjusted
value would be 2 s. -/
theorem claim_C8_counterexample :
    (finishDataTransmission pEx sInTx).wakeTimers =
      [⟨true, pEx.sleepInterval⟩] ∧
    pEx.sleepInterval = 1 ∧
    DRIFTED_TIME pEx pEx.sleepInterval = 2 ∧
    ¬ ((1 : ℚ) = 2) :=
  ⟨by decide, by decide, by with_unfolding_all rfl, by decide⟩

/-- Claim C8 amended: the delays the MAC schedules are drift-multiplied at
the duty-cycle sleep and wake arming sites, the empty-buffer listen sleep,
the transmit-initiation offset, the not-ready carrier-sense retry, the
busy-channel sleep window and the post-burst re-initiation (the
redundant-copy offsets are covered by the C2 theorem); the exceptions are
the wake-timer armed by `finishDataTransmission`, which uses plain
`sleepInterval`, and the carrier-sense-exit timer, whose delay
`CARRIER_SENSE_INTERVAL + epsilon` is likewise not drift-adjusted. -/
theorem claim_C8_amended (p : Params) (s : MacState) (rand : ℚ) (nf : Frame) :
    (s.macState = MState.default →
      (dutyCycle p SLEEP s).wakeTimers.head? =
        some ⟨true, DRIFTED_TIME p p.sleepInterval⟩) ∧
    (s.macState = MState.default → s.doTx = false →
      (dutyCycle p WAKEUP s).sleepTimers.head? =
        some ⟨true, DRIFTED_TIME p p.listenInterval⟩) ∧
    ((s.macState = MState.default ∨ s.macState = MState.tryTx) →
      s.doTx = true → BUFFER_IS_EMPTY s = true →
      (initiateCarrierSense p s).sleepTimers.head? =
        some ⟨false, DRIFTED_TIME p p.listenInterval⟩) ∧
    (BUFFER_IS_FULL p s = false →
      nf.len + p.macFrameOverhead ≤ p.maxMacFrameSize →
      (handleNetworkLayerFrame p rand nf s).initTxPending.head? =
        some (DRIFTED_TIME p (rand * p.randomTxOffset))) ∧
    ((s.macState = MState.default ∨ s.macState = MState.tryTx) →
      (performCarrierSense p CSValidity.radioNonReady s).pcsPending.head? =
        some (DRIFTED_TIME p p.radioDelayForValidCS)) ∧
    ((s.macState = MState.carrierSensing ∨ s.macState = MState.default) →
      (carrierBusy p s).sleepTimers.head? =
        some ⟨true, DRIFTED_TIME p
          ((2 * (p.maxMacFrameSize : ℚ) * 8) / (1000 * p.radioDataRate))⟩) ∧
    (s.macState = MState.tx → BUFFER_IS_EMPTY s = false →
      (finishDataTransmission p s).initTxPending.head? =
        some (DRIFTED_TIME p (s.dataTXtime + epsilon))) ∧
    ((s.macState = MState.default ∨ s.macState = MState.tryTx) →
      (performCarrierSense p CSValidity.valid s).exitCS =
        some (CARRIER_SENSE_INTERVAL + epsilon)) ∧
    (finishDataTransmission p s).wakeTimers.head? =
      some ⟨true, p.sleepInterval⟩ := by
  refine ⟨?_, ?_, ?_, ?_, ?_, ?_, ?_, ?_, ?_⟩
  · intro hms
    have hc1 : (s.macState = MState.expectingRx) = False := by simp [hms]
    have hc2 : (s.macState = MState.default) = True := eq_true hms
    simp [dutyCycle, SLEEP, WAKEUP, hc1, hc2, armTracked, untrackAll]
  · intro hms hdo
    have hc2 : (s.macState = MState.default) = True := eq_true hms
    simp [dutyCycle, SLEEP, WAKEUP, hc2, hdo, initiateCarrierSense,
      armTracked, untrackAll]
  · intro hms hdo hemp
    have hc : (s.macState = MState.default ∨ s.macState = MState.tryTx) = True :=
      eq_true hms
    simp [initiateCarrierSense, hc, hdo, hemp, armUntracked]
  · intro hful hlen
    have hno : ¬ (nf.len + p.macFrameOverhead > p.maxMacFrameSize) := by omega
    have henc : encapsulateNetworkFrame p nf.len =
        some (p.macFrameOverhead + nf.len) := by
      simp only [encapsulateNetworkFrame]
      rw [if_neg hno]
    simp [handleNetworkLayerFrame, hful, henc]
  · intro hms
    have hc : (s.macState = MState.default ∨ s.macState = MState.tryTx) = True :=
      eq_true hms
    simp [performCarrierSense, hc]
  · intro hms
    have hmac2 : (({ s with exitCS := none } : MacState).macState =
        MState.carrierSensing ∨
        ({ s with exitCS := none } : MacState).macState = MState.default) := hms
    simp only [carrierBusy]
    rw [if_pos hmac2]
    split <;> simp [armTracked]
  · intro hms hne
    have hc : (s.macState = MState.tx) = True := eq_true hms
    have hne2 : ¬ s.headTxBuffer = s.tailTxBuffer := by
      simpa [BUFFER_IS_EMPTY] using hne
    simp [finishDataTransmission, hc, BUFFER_IS_EMPTY, hne2]
  · intro hms
    have hc : (s.macState = MState.default ∨ s.macState = MState.tryTx) = True :=
      eq_true hms
    simp [performCarrierSense, hc]
  · simp [finishDataTransmission, armTracked]

/-- Witness for the amended C8: the drifted duty-cycle wake delay at the
initial state. -/
theorem claim_C8_witness :
    initMac.macState = MState.default ∧
    (dutyCycle pEx SLEEP initMac).wakeTimers.head? =
      some ⟨true, DRIFTED_TIME pEx pEx.sleepInterval⟩ :=
  ⟨by decide, (claim_C8_amended pEx initMac 0 ⟨0, 0⟩).1 (by decide)⟩

/-- Claim C9 (the pop-on-empty corruption, documented from the code):
popping with head = tail returns NULL and decrements `tailTxBuffer`; the
resulting state reports `getTXBufferSize = macBufferSize`, satisfies
`BUFFER_IS_FULL`, rejects every subsequent push (both the guarded push,
which leaves the queue untouched, and the raw `pushBuffer`, which stores
nothing) even though no frame is stored, and a subsequent pop then returns
the content of the unoccupied slot at the head index. -/
theorem claim_C9 (p : Params) (s : MacState)
    (h : s.tailTxBuffer = s.headTxBuffer)
    (hh0 : 0 ≤ s.headTxBuffer)
    (hh1 : s.headTxBuffer < MAC_BUFFER_ARRAY_SIZE p) :
    (popTxBuffer p s).1 = none ∧
    (popTxBuffer p s).2.tailTxBuffer = s.tailTxBuffer - 1 ∧
    getTXBufferSize p (popTxBuffer p s).2 = (p.macBufferSize : ℤ) ∧
    BUFFER_IS_FULL p (popTxBuffer p s).2 = true ∧
    (∀ f : Frame,
      (pushFrameIntoBuffer p f (popTxBuffer p s).2).headTxBuffer =
        (popTxBuffer p s).2.headTxBuffer ∧
      (pushFrameIntoBuffer p f (popTxBuffer p s).2).tailTxBuffer =
        (popTxBuffer p s).2.tailTxBuffer ∧
      (pushFrameIntoBuffer p f (popTxBuffer p s).2).schedTXBuffer =
        (popTxBuffer p s).2.schedTXBuffer) ∧
    (∀ f : Frame,
      (pushBuffer p (popTxBuffer p s).2 (some f)).2 = false ∧
      (pushBuffer p (popTxBuffer p s).2 (some f)).1.schedTXBuffer =
        (popTxBuffer p s).2.schedTXBuffer) ∧
    (popTxBuffer p (popTxBuffer p s).2).1 =
      some ((popTxBuffer p s).2.schedTXBuffer
        (popTxBuffer p s).2.headTxBuffer.toNat) := by
  have hM : MAC_BUFFER_ARRAY_SIZE p = (p.macBufferSize : ℤ) + 1 := rfl
  have hfst : (popTxBuffer p s).1 = none := by
    simp only [popTxBuffer]
    rw [if_pos h]
  have hs1 : (popTxBuffer p s).2 =
      { s with tailTxBuffer := s.tailTxBuffer - 1,
               popEmptyLog := s.popEmptyLog + 1 } := by
    simp only [popTxBuffer]
    rw [if_pos h]
  have hsz : getTXBufferSize p (popTxBuffer p s).2 = (p.macBufferSize : ℤ) := by
    rw [hs1]
    show (if s.tailTxBuffer - 1 - s.headTxBuffer < 0 then
        s.tailTxBuffer - 1 - s.headTxBuffer + MAC_BUFFER_ARRAY_SIZE p
      else s.tailTxBuffer - 1 - s.headTxBuffer) = (p.macBufferSize : ℤ)
    rw [h]
    have hcond : s.headTxBuffer - 1 - s.headTxBuffer < 0 := by omega
    rw [if_pos hcond]
    omega
  have hfull : BUFFER_IS_FULL p (popTxBuffer p s).2 = true := by
    simp [BUFFER_IS_FULL, hsz]
  have hpop2gen : ∀ t : MacState, ¬ t.tailTxBuffer = t.headTxBuffer →
      (popTxBuffer p t).1 = some (t.schedTXBuffer t.headTxBuffer.toNat) := by
    intro t ht
    simp only [popTxBuffer]
    rw [if_neg ht]
  refine ⟨hfst, by rw [hs1], hsz, hfull, ?_, ?_, ?_⟩
  · intro f
    have hXX : pushFrameIntoBuffer p f (popTxBuffer p s).2 =
        { (popTxBuffer p s).2 with
          netNotifs := (popTxBuffer p s).2.netNotifs + 1 } := by
      simp only [pushFrameIntoBuffer, hfull, if_true]
    exact ⟨by rw [hXX], by rw [hXX], by rw [hXX]⟩
  · intro f
    have hguard : ((popTxBuffer p s).2.tailTxBuffer + 1).emod
        (MAC_BUFFER_ARRAY_SIZE p) = (popTxBuffer p s).2.headTxBuffer := by
      rw [hs1]
      show (s.tailTxBuffer - 1 + 1).emod (MAC_BUFFER_ARRAY_SIZE p) =
        s.headTxBuffer
      rw [show s.tailTxBuffer - 1 + 1 = s.tailTxBuffer by ring, h]
      exact emod_eq_self hh0 hh1
    constructor <;> (simp only [pushBuffer]; rw [if_pos hguard])
  · have hg2 : ¬ (popTxBuffer p s).2.tailTxBuffer =
        (popTxBuffer p s).2.headTxBuffer := by
      rw [hs1]
      show ¬ (s.tailTxBuffer - 1 = s.headTxBuffer)
      omega
    exact hpop2gen _ hg2

/-- Witness for C9 at the freshly initialized (empty) state. -/
theorem claim_C9_witness :
    initMac.tailTxBuffer = initMac.headTxBuffer ∧
    (popTxBuffer pEx initMac).1 = none ∧
    getTXBufferSize pEx (popTxBuffer pEx initMac).2 =
      (pEx.macBufferSize : ℤ) ∧
    BUFFER_IS_FULL pEx (popTxBuffer pEx initMac).2 = true ∧
    (popTxBuffer pEx (popTxBuffer pEx initMac).2).1 =
      some ((popTxBuffer pEx initMac).2.schedTXBuffer
        (popTxBuffer pEx initMac).2.headTxBuffer.toNat) := by
  obtain ⟨c1, _, c3, c4, _, _, c7⟩ :=
    claim_C9 pEx initMac (by decide) (by decide) (by decide)
  exact ⟨by decide, c1, c3, c4, c7⟩

/-- Claim C10: on any frame received from the radio, regardless of the
current state (including TX and CarrierSensing), the state is
unconditionally set to Idle, both duty-cycle timers are cancelled, an
immediate (zero-delay) sleep self-event is armed, and the
carrier-sense-exit timer is left untouched — if it was pending it remains
armed and can later fire as a spurious channel-free indication. -/
theorem claim_C10 (s : MacState)
    (hts : ∀ e ∈ s.sleepTimers, e.tracked = true)
    (htw : ∀ e ∈ s.wakeTimers, e.tracked = true) :
    (frameReceivedHandler s).macState = MState.default ∧
    (frameReceivedHandler s).wakeTimers = [] ∧
    (frameReceivedHandler s).sleepTimers = [⟨true, 0⟩] ∧
    (frameReceivedHandler s).exitCS = s.exitCS ∧
    (s.exitCS.isSome = true →
      enabled (frameReceivedHandler s) (Event.exitCSFires true) = true) := by
  refine ⟨rfl, ?_, ?_, rfl, ?_⟩
  · exact cancelTracked_of_allTracked htw
  · exact timersOk_armCancel hts
  · intro hex
    simpa [enabled] using hex

/-- Witness for C10 at the mid-transmission state with a pending exit
timer. -/
theorem claim_C10_witness :
    sRx.macState = MState.tx ∧
    ((frameReceivedHandler sRx).macState = MState.default ∧
     (frameReceivedHandler sRx).wakeTimers = [] ∧
     (frameReceivedHandler sRx).sleepTimers = [⟨true, 0⟩] ∧
     (frameReceivedHandler sRx).exitCS = sRx.exitCS ∧
     (sRx.exitCS.isSome = true →
       enabled (frameReceivedHandler sRx) (Event.exitCSFires true) = true)) :=
  ⟨by decide, claim_C10 sRx (by decide) (by decide)⟩

end SpeckMac
